import Mathlib

/-!
Verification of the Personal Primer daily curation pipeline.

The definitions below are a shallow embedding of the TypeScript sources:
`services/bundleGenerator.ts` (artifact selection, coherence loop, per-type
link-resolution retry loops, framing, persistence), `services/linkValidator.ts`
(the Apple Music and image resolvers), `services/insightExtractor.ts` together
with `services/arcGenerator.ts` (arc completion at session end), and
`utils/firestore.ts` (arc store operations, `calculateDayInArc`,
`determinePhase`).  External collaborators (the structured-generation client,
the iTunes / Wikimedia / Google search services, the durable store) are
modelled as explicit oracle parameters; everything the repository itself
computes is translated directly.
-/

namespace Primer

/-! ## Identity normalization (`bundleGenerator.ts`, `normalizeCreatorName`)

The source:
```
function normalizeCreatorName(name: string): string {
  return name
    .toLowerCase()
    .replace(/\./g, '')    // Remove periods
    .replace(/\s+/g, ' ')  // Normalize whitespace
    .trim();
}
```
Strings are modelled as their character lists.  `jsLower` models
`toLowerCase` on the ASCII letters (the only case mapping the repository's
creator names exercise); `isJsWs` models the `\s` character class on the
ASCII whitespace characters. -/

def jsLower (c : Char) : Char :=
  if 'A' ≤ c ∧ c ≤ 'Z' then Char.ofNat (c.toNat + 32) else c

def isJsWs (c : Char) : Bool :=
  c = ' ' ∨ c = '\t' ∨ c = '\n' ∨ c = '\r' ∨ c = Char.ofNat 11 ∨ c = Char.ofNat 12

/-- `replace(/\s+/g, ' ')`: each maximal run of whitespace becomes one space.
`prevWs` records whether the previously read character was whitespace, so a
run contributes a single `' '`. -/
def collapseWsAux : Bool → List Char → List Char
  | _, [] => []
  | prevWs, c :: rest =>
    if isJsWs c then
      if prevWs then collapseWsAux true rest
      else ' ' :: collapseWsAux true rest
    else c :: collapseWsAux false rest

def collapseWs (l : List Char) : List Char := collapseWsAux false l

/-- `trim()` start: drop leading whitespace. -/
def trimStart (l : List Char) : List Char := l.dropWhile isJsWs

/-- `trim()` end: drop trailing whitespace. -/
def trimEnd (l : List Char) : List Char := (l.reverse.dropWhile isJsWs).reverse

def jsTrim (l : List Char) : List Char := trimEnd (trimStart l)

/-- `normalizeCreatorName`: lowercase, strip periods, collapse whitespace, trim. -/
def normalizeCreatorName (s : String) : String :=
  ⟨jsTrim (collapseWs (((s.data.map jsLower).filter (fun c => c ≠ '.'))))⟩

example : normalizeCreatorName "T.S. Eliot" = "ts eliot" := by rfl
example : normalizeCreatorName "T. S. Eliot" = "t s eliot" := by rfl
example : normalizeCreatorName "  Vincent  van GOGH " = "vincent van gogh" := by rfl

/-! ### Idempotency of the normalizer -/

theorem toNat_ofNat_small (n : Nat) (h : n < 55296) : (Char.ofNat n).toNat = n := by
  unfold Char.ofNat
  rw [dif_pos (Or.inl h)]
  simp [Char.toNat, Char.ofNatAux, UInt32.toNat, UInt32.ofNat']

theorem char_le_iff_toNat (a b : Char) : a ≤ b ↔ a.toNat ≤ b.toNat := Iff.rfl

theorem jsLower_idem (c : Char) : jsLower (jsLower c) = jsLower c := by
  unfold jsLower
  by_cases h : 'A' ≤ c ∧ c ≤ 'Z'
  · rw [if_pos h, if_neg]
    rintro ⟨h1, h2⟩
    have hA : ('A' : Char).toNat = 65 := rfl
    have hZ : ('Z' : Char).toNat = 90 := rfl
    have hcZ : c.toNat ≤ 90 := by
      have := (char_le_iff_toNat c 'Z').mp h.2; omega
    have hsmall : c.toNat + 32 < 55296 := by omega
    have heq := toNat_ofNat_small (c.toNat + 32) hsmall
    have := (char_le_iff_toNat (Char.ofNat (c.toNat + 32)) 'Z').mp h2
    have hcA : 65 ≤ c.toNat := by
      have := (char_le_iff_toNat 'A' c).mp h.1; omega
    omega
  · rw [if_neg h, if_neg h]

theorem jsLower_space : jsLower ' ' = ' ' := by decide

/-- No two adjacent whitespace characters. -/
def NoAdjWs (l : List Char) : Prop :=
  l.Chain' (fun a b => ¬(isJsWs a = true ∧ isJsWs b = true))

/-- The head (when present) is not whitespace. -/
def HeadNotWs (l : List Char) : Prop := ∀ c ∈ l.head?, isJsWs c = false

theorem headNotWs_nil : HeadNotWs ([] : List Char) := by
  intro c hc; simp [List.head?] at hc

theorem mem_collapseWsAux {c : Char} :
    ∀ (b : Bool) (l : List Char), c ∈ collapseWsAux b l → c = ' ' ∨ c ∈ l := by
  intro b l
  induction l generalizing b with
  | nil => intro h; simp [collapseWsAux] at h
  | cons a t ih =>
    intro h
    simp only [collapseWsAux] at h
    by_cases ha : isJsWs a
    · rw [if_pos ha] at h
      cases b with
      | true =>
        simp only [if_pos rfl] at h
        rcases ih true h with h' | h'
        · exact Or.inl h'
        · exact Or.inr (List.mem_cons_of_mem a h')
      | false =>
        simp only [Bool.false_eq_true, if_neg] at h
        rcases List.mem_cons.mp h with h' | h'
        · exact Or.inl h'
        · rcases ih true h' with h'' | h''
          · exact Or.inl h''
          · exact Or.inr (List.mem_cons_of_mem a h'')
    · rw [if_neg ha] at h
      rcases List.mem_cons.mp h with h' | h'
      · exact Or.inr (h' ▸ List.mem_cons_self a t)
      · rcases ih false h' with h'' | h''
        · exact Or.inl h''
        · exact Or.inr (List.mem_cons_of_mem a h'')

theorem ws_eq_space_of_mem_collapseWsAux {c : Char} :
    ∀ (b : Bool) (l : List Char), c ∈ collapseWsAux b l → isJsWs c = true → c = ' ' := by
  intro b l
  induction l generalizing b with
  | nil => intro h; simp [collapseWsAux] at h
  | cons a t ih =>
    intro h hws
    simp only [collapseWsAux] at h
    by_cases ha : isJsWs a
    · rw [if_pos ha] at h
      cases b with
      | true => simp only [if_pos rfl] at h; exact ih true h hws
      | false =>
        simp only [Bool.false_eq_true, if_neg] at h
        rcases List.mem_cons.mp h with h' | h'
        · exact h'
        · exact ih true h' hws
    · rw [if_neg ha] at h
      rcases List.mem_cons.mp h with h' | h'
      · exact absurd (h' ▸ hws) (by simpa using ha)
      · exact ih false h' hws

theorem noAdj_collapseWsAux :
    ∀ (l : List Char) (b : Bool),
      NoAdjWs (collapseWsAux b l) ∧ (b = true → HeadNotWs (collapseWsAux b l)) := by
  intro l
  induction l with
  | nil => intro b; exact ⟨List.chain'_nil, fun _ => headNotWs_nil⟩
  | cons a t ih =>
    intro b
    simp only [collapseWsAux]
    by_cases ha : isJsWs a
    · rw [if_pos ha]
      cases b with
      | true => simpa using ih true
      | false =>
        simp only [Bool.false_eq_true, if_neg]
        constructor
        · refine List.chain'_cons'.mpr ⟨?_, (ih true).1⟩
          intro d hd
          have hdw : isJsWs d = false := (ih true).2 rfl d hd
          simp [hdw]
        · intro hb; cases hb
    · rw [if_neg ha]
      have hkey : NoAdjWs (a :: collapseWsAux false t) := by
        refine List.chain'_cons'.mpr ⟨?_, (ih false).1⟩
        intro d _
        simp [ha]
      refine ⟨hkey, fun _ => ?_⟩
      intro c hc
      simp only [List.head?, Option.mem_def, Option.some.injEq] at hc
      subst hc
      simpa using ha

theorem collapseWsAux_eq_self :
    ∀ (l : List Char) (b : Bool),
      (∀ c ∈ l, isJsWs c = true → c = ' ') → NoAdjWs l → (b = true → HeadNotWs l) →
      collapseWsAux b l = l := by
  intro l
  induction l with
  | nil => intro b _ _ _; rfl
  | cons a t ih =>
    intro b hall hadj hhead
    simp only [collapseWsAux]
    by_cases ha : isJsWs a
    · have hb : b = false := by
        cases b with
        | false => rfl
        | true =>
          have := hhead rfl a (by simp [List.head?])
          rw [ha] at this; cases this
      subst hb
      have haspace : a = ' ' := hall a (List.mem_cons_self a t) ha
      have htail : collapseWsAux true t = t := by
        refine ih true (fun c hc hw => hall c (List.mem_cons_of_mem a hc) hw) hadj.tail ?_
        intro _ d hd
        have hrel := (List.chain'_cons'.mp hadj).1 d hd
        by_contra hcon
        exact hrel ⟨ha, by simpa using hcon⟩
      rw [if_pos ha, if_neg (by simp), htail, haspace]
    · rw [if_neg ha]
      have htail : collapseWsAux false t = t :=
        ih false (fun c hc hw => hall c (List.mem_cons_of_mem a hc) hw) hadj.tail (fun h => by cases h)
      rw [htail]

theorem mem_trimStart {c : Char} {l : List Char} (h : c ∈ trimStart l) : c ∈ l :=
  (List.dropWhile_sublist (l := l) isJsWs).mem h

theorem trimEnd_append (l : List Char) : ∃ t, l = trimEnd l ++ t := by
  refine ⟨(l.reverse.takeWhile isJsWs).reverse, ?_⟩
  unfold trimEnd
  rw [← List.reverse_append, List.takeWhile_append_dropWhile, List.reverse_reverse]

theorem mem_trimEnd {c : Char} {l : List Char} (h : c ∈ trimEnd l) : c ∈ l := by
  obtain ⟨t, ht⟩ := trimEnd_append l
  rw [ht]
  exact List.mem_append_left t h

theorem noAdj_dropWhile {l : List Char} (h : NoAdjWs l) : NoAdjWs (l.dropWhile isJsWs) := by
  induction l with
  | nil => exact List.chain'_nil
  | cons a t ih =>
    by_cases ha : isJsWs a
    · rw [List.dropWhile_cons, if_pos (by simpa using ha)]
      exact ih h.tail
    · rw [List.dropWhile_cons, if_neg (by simpa using ha)]
      exact h

theorem noAdj_trimStart {l : List Char} (h : NoAdjWs l) : NoAdjWs (trimStart l) :=
  noAdj_dropWhile h

theorem noAdj_trimEnd {l : List Char} (h : NoAdjWs l) : NoAdjWs (trimEnd l) := by
  obtain ⟨t, ht⟩ := trimEnd_append l
  rw [ht] at h
  exact h.left_of_append

theorem headNotWs_dropWhile (l : List Char) : HeadNotWs (l.dropWhile isJsWs) := by
  induction l with
  | nil => exact headNotWs_nil
  | cons a t ih =>
    by_cases ha : isJsWs a
    · rw [List.dropWhile_cons, if_pos (by simpa using ha)]; exact ih
    · rw [List.dropWhile_cons, if_neg (by simpa using ha)]
      intro c hc
      simp only [List.head?, Option.mem_def, Option.some.injEq] at hc
      subst hc
      simpa using ha

theorem headNotWs_trimStart (l : List Char) : HeadNotWs (trimStart l) :=
  headNotWs_dropWhile l

theorem dropWhile_eq_self_of_headNotWs {l : List Char} (h : HeadNotWs l) :
    l.dropWhile isJsWs = l := by
  cases l with
  | nil => rfl
  | cons a t =>
    have ha : isJsWs a = false := h a (by simp [List.head?])
    rw [List.dropWhile_cons, if_neg (by simp [ha])]

theorem trimStart_eq_self {l : List Char} (h : HeadNotWs l) : trimStart l = l :=
  dropWhile_eq_self_of_headNotWs h

theorem headNotWs_trimEnd {l : List Char} (h : HeadNotWs l) : HeadNotWs (trimEnd l) := by
  obtain ⟨t, ht⟩ := trimEnd_append l
  cases he : trimEnd l with
  | nil => exact he ▸ headNotWs_nil
  | cons a s =>
    rw [he] at ht
    intro c hc
    simp only [List.head?, Option.mem_def, Option.some.injEq] at hc
    subst hc
    exact h _ (by rw [ht]; rfl)

theorem trimEnd_trimEnd (l : List Char) : trimEnd (trimEnd l) = trimEnd l := by
  unfold trimEnd
  rw [List.reverse_reverse]
  rw [dropWhile_eq_self_of_headNotWs (headNotWs_dropWhile l.reverse)]

/-- List-level normalizer: `normalizeCreatorName` acts on the character list. -/
theorem normalizeCreatorName_data (s : String) :
    (normalizeCreatorName s).data
      = jsTrim (collapseWs ((s.data.map jsLower).filter (fun c => c ≠ '.'))) := rfl

theorem normalizeCreatorName_idem (s : String) :
    normalizeCreatorName (normalizeCreatorName s) = normalizeCreatorName s := by
  -- abbreviations for the two stages
  set x : List Char := s.data with hx
  set z : List Char := collapseWs ((x.map jsLower).filter (fun c => c ≠ '.')) with hz
  set y : List Char := jsTrim z with hy
  have hydata : (normalizeCreatorName s).data = y := rfl
  -- every character of y is a character of z, hence ' ' or a `jsLower`-image
  have hmemz : ∀ c ∈ y, c ∈ z := by
    intro c hc
    exact mem_trimStart (mem_trimEnd hc)
  have hfix : ∀ c ∈ y, jsLower c = c := by
    intro c hc
    rcases mem_collapseWsAux false _ (hmemz c hc) with h | h
    · rw [h]; exact jsLower_space
    · rcases List.mem_filter.mp h with ⟨hmem, _⟩
      rcases List.mem_map.mp hmem with ⟨d, _, hd⟩
      rw [← hd]; exact jsLower_idem d
  have hnodot : ∀ c ∈ y, decide (c ≠ '.') = true := by
    intro c hc
    rcases mem_collapseWsAux false _ (hmemz c hc) with h | h
    · subst h; decide
    · rcases List.mem_filter.mp h with ⟨_, hpred⟩
      exact hpred
  have hwspace : ∀ c ∈ y, isJsWs c = true → c = ' ' := by
    intro c hc hw
    exact ws_eq_space_of_mem_collapseWsAux false _ (hmemz c hc) hw
  have hadj : NoAdjWs y := by
    have h1 : NoAdjWs z := (noAdj_collapseWsAux _ false).1
    exact noAdj_trimEnd (noAdj_trimStart h1)
  have hhead : HeadNotWs y := headNotWs_trimEnd (headNotWs_trimStart z)
  -- second application is the identity on y
  have hmap : y.map jsLower = y := by
    conv_rhs => rw [← List.map_id y]
    exact List.map_congr_left hfix
  have hfilter : y.filter (fun c => c ≠ '.') = y := List.filter_eq_self.mpr hnodot
  have hcollapse : collapseWs y = y :=
    collapseWsAux_eq_self y false hwspace hadj (fun h => by cases h)
  have htrim : jsTrim y = y := by
    unfold jsTrim
    rw [trimStart_eq_self hhead]
    have : y = trimEnd (trimStart z) := rfl
    rw [this, trimEnd_trimEnd]
  apply String.ext
  rw [hydata, normalizeCreatorName_data, hydata, hmap, hfilter, hcollapse, htrim]

/-- **C9.** The identity normalizer is idempotent; but stripping periods does
not insert the space the spec's example expects: `"T.S. Eliot"` normalizes to
`"ts eliot"` while `"T. S. Eliot"` normalizes to `"t s eliot"`, so the two
spellings do *not* normalize identically, contradicting the claim and the
source's own comment (`// handles "T.S. Eliot" vs "T. S. Eliot"`). -/
theorem normalizeCreatorName_idem_and_initials_bug :
    (∀ s, normalizeCreatorName (normalizeCreatorName s) = normalizeCreatorName s)
    ∧ normalizeCreatorName "T.S. Eliot" = "ts eliot"
    ∧ normalizeCreatorName "T. S. Eliot" = "t s eliot"
    ∧ normalizeCreatorName "T.S. Eliot" ≠ normalizeCreatorName "T. S. Eliot" :=
  ⟨normalizeCreatorName_idem, rfl, rfl, by decide⟩

/-! ## Arc phase and day-in-arc (`utils/firestore.ts`)

```
export async function calculateDayInArc(userId, arc) {
  const snapshot = await collections.dailyBundles.where('arcId','==',arc.id).count().get();
  return Math.max(1, snapshot.data().count);
}
export function determinePhase(dayInArc, targetDuration) {
  const progress = dayInArc / targetDuration;
  if (progress <= 0.33) return 'early';
  if (progress <= 0.66) return 'middle';
  return 'late';
}
```
The store query result is the `bundleCount` parameter; the JavaScript number
literals `0.33` and `0.66` are modelled by the exact rationals they denote. -/

inductive Phase where
  | early
  | middle
  | late
deriving DecidableEq, Repr

def Phase.idx : Phase → ℕ
  | .early => 0
  | .middle => 1
  | .late => 2

def determinePhase (dayInArc targetDuration : ℚ) : Phase :=
  if dayInArc / targetDuration ≤ 33 / 100 then .early
  else if dayInArc / targetDuration ≤ 66 / 100 then .middle
  else .late

def calculateDayInArc (bundleCount : ℕ) : ℕ := max 1 bundleCount

/-- `bundleGenerator.ts`: `const dayInArc = (await calculateDayInArc(userId, arc)) + 1;`
("Add 1 because we're generating a NEW bundle (not yet in the count)"). -/
def generationDayInArc (bundleCount : ℕ) : ℕ := calculateDayInArc bundleCount + 1

/-- `buildFramingPrompt`: `const isFirstDay = dayInArc === 1;`. -/
def isFirstDayFlag (dayInArc : ℕ) : Bool := dayInArc == 1

/-- **C7 counterexample.** On day 5 of a 7-day arc the progress is 5/7 ≈ 0.714,
which exceeds 0.66, so `determinePhase 5 7` is `late`, not `middle` as the
claim's example `determinePhase(5,7)=middle` states. -/
theorem determinePhase_day5_of_7_not_middle : determinePhase 5 7 ≠ Phase.middle := by
  unfold determinePhase
  rw [if_neg (by norm_num), if_neg (by norm_num)]
  decide

/-- **C7 (amended).** `determinePhase` is monotone non-decreasing in the day for
a fixed positive target, always returns one of early/middle/late, and satisfies
`determinePhase 1 7 = early`, `determinePhase 5 7 = late` (not `middle`),
`determinePhase 7 7 = late`. -/
theorem determinePhase_monotone_and_examples :
    (∀ d d' t : ℚ, 0 < t → d ≤ d' → (determinePhase d t).idx ≤ (determinePhase d' t).idx)
    ∧ (∀ d t : ℚ, determinePhase d t = .early ∨ determinePhase d t = .middle
        ∨ determinePhase d t = .late)
    ∧ determinePhase 1 7 = .early
    ∧ determinePhase 5 7 = .late
    ∧ determinePhase 7 7 = .late := by
  refine ⟨?_, ?_,
    by unfold determinePhase; rw [if_pos (by norm_num)],
    by unfold determinePhase; rw [if_neg (by norm_num), if_neg (by norm_num)],
    by unfold determinePhase; rw [if_neg (by norm_num), if_neg (by norm_num)]⟩
  · intro d d' t ht hdd
    have hdiv : d / t ≤ d' / t := div_le_div_of_nonneg_right hdd ht.le
    unfold determinePhase
    by_cases h1 : d / t ≤ 33 / 100
    · rw [if_pos h1]; exact Nat.zero_le _
    · rw [if_neg h1]
      have h1' : ¬(d' / t ≤ 33 / 100) := fun h => h1 (le_trans hdiv h)
      rw [if_neg h1']
      by_cases h2 : d / t ≤ 66 / 100
      · rw [if_pos h2]
        by_cases h3 : d' / t ≤ 66 / 100
        · rw [if_pos h3]
        · rw [if_neg h3]; decide
      · rw [if_neg h2]
        have h3 : ¬(d' / t ≤ 66 / 100) := fun h => h2 (le_trans hdiv h)
        rw [if_neg h3]
  · intro d t
    unfold determinePhase
    by_cases h1 : d / t ≤ 33 / 100
    · rw [if_pos h1]; exact Or.inl rfl
    · rw [if_neg h1]
      by_cases h2 : d / t ≤ 66 / 100
      · rw [if_pos h2]; exact Or.inr (Or.inl rfl)
      · rw [if_neg h2]; exact Or.inr (Or.inr rfl)

theorem determinePhase_monotone_witness :
    (determinePhase 2 7).idx ≤ (determinePhase 6 7).idx :=
  determinePhase_monotone_and_examples.1 2 6 7 (by norm_num) (by norm_num)

/-- **C8.** With zero persisted bundles the generator uses `dayInArc =
Math.max(1, 0) + 1 = 2`, not `0 + 1 = 1` as the claim states; consequently the
generator's own `isFirstDay` (`dayInArc === 1`) framing branch can never fire.
For `n ≥ 1` the value is `n + 1` as claimed. -/
theorem generationDayInArc_off_by_one :
    generationDayInArc 0 = 2
    ∧ (∀ n, 1 ≤ n → generationDayInArc n = n + 1)
    ∧ (∀ n, isFirstDayFlag (generationDayInArc n) = false) := by
  refine ⟨rfl, ?_, ?_⟩
  · intro n hn
    simp [generationDayInArc, calculateDayInArc, Nat.max_eq_right hn]
  · intro n
    have h1 : 1 ≤ max 1 n := le_max_left 1 n
    simp only [isFirstDayFlag, generationDayInArc, calculateDayInArc,
      beq_eq_false_iff_ne, ne_eq]
    omega

theorem generationDayInArc_witness : 1 ≤ 3 ∧ generationDayInArc 3 = 3 + 1 :=
  ⟨by decide, generationDayInArc_off_by_one.2.1 3 (by decide)⟩

/-! ## Arc lifecycle at session end
(`insightExtractor.ts` `extractAndEndSession` + `arcGenerator.ts`
`generateArcCompletion` + `utils/firestore.ts` arc store)

The arc store is a list of records ordered as `getActiveArc` iterates them
(most recent `startDate` first).  `completed` models presence of
`completedDate`.  `createArc` is the store write performed inside
`generateArcCompletion`; `completeArc` the one performed afterwards by
`extractAndEndSession`:
```
arcCompletion = await generateArcCompletion(userId, arc, conversation); // createArc inside
await completeArc(userId, arc.id);
```
-/

structure ArcRec where
  id : ℕ
  targetDurationDays : ℕ
  completed : Bool
deriving DecidableEq, Repr

def createArc (store : List ArcRec) (a : ArcRec) : List ArcRec := store ++ [a]

def completeArc (store : List ArcRec) (arcId : ℕ) : List ArcRec :=
  store.map (fun a => if a.id = arcId then { a with completed := true } else a)

def getActiveArc (store : List ArcRec) : Option ArcRec :=
  store.find? (fun a => !a.completed)

def activeCount (store : List ArcRec) : ℕ :=
  (store.filter (fun a => !a.completed)).length

inductive ArcWrite where
  | create (a : ArcRec)
  | complete (arcId : ℕ)
deriving DecidableEq, Repr

def applyArcWrite (store : List ArcRec) : ArcWrite → List ArcRec
  | .create a => createArc store a
  | .complete i => completeArc store i

/-- The arc-store writes issued by the tail of `extractAndEndSession` (the
early `sessionEnded` return suppresses the whole tail; the day check guards the
completion; the next arc is created inside `generateArcCompletion` *before*
`completeArc` runs). -/
def extractAndEndSessionArcWrites (sessionEnded : Bool) (store : List ArcRec)
    (dayInArc : ℕ) (next : ArcRec) : List ArcWrite :=
  if sessionEnded then []
  else
    match getActiveArc store with
    | none => []
    | some arc =>
      if dayInArc ≥ arc.targetDurationDays then [.create next, .complete arc.id]
      else []

/-- Every store state visited while applying the writes in order. -/
def arcStates (store : List ArcRec) (ws : List ArcWrite) : List (List ArcRec) :=
  ws.scanl applyArcWrite store

theorem find?_eq_head?_filter (p : ArcRec → Bool) (l : List ArcRec) :
    l.find? p = (l.filter p).head? := by
  induction l with
  | nil => rfl
  | cons a t ih =>
    by_cases h : p a
    · rw [List.find?_cons_of_pos _ h, List.filter_cons_of_pos h]; rfl
    · rw [List.find?_cons_of_neg _ (by simpa using h),
        List.filter_cons_of_neg (by simpa using h), ih]

/-- **C2 counterexample.** One active 7-day arc, session ends on day 7: the
next arc is created *before* the current one is completed, so the intermediate
store state holds two non-completed arcs. -/
theorem arc_transition_two_active_intermediate :
    extractAndEndSessionArcWrites false [⟨0, 7, false⟩] 7 ⟨1, 7, false⟩
        = [.create ⟨1, 7, false⟩, .complete 0]
    ∧ arcStates [⟨0, 7, false⟩] [.create ⟨1, 7, false⟩, .complete 0]
        = [[⟨0, 7, false⟩], [⟨0, 7, false⟩, ⟨1, 7, false⟩], [⟨0, 7, true⟩, ⟨1, 7, false⟩]]
    ∧ activeCount [⟨0, 7, false⟩, ⟨1, 7, false⟩] = 2 := by
  refine ⟨rfl, rfl, rfl⟩

theorem filter_complete_nil (store : List ArcRec) (arcId : ℕ)
    (h : ∀ a ∈ store, a.completed = false → a.id = arcId) :
    (completeArc store arcId).filter (fun a => !a.completed) = [] := by
  induction store with
  | nil => rfl
  | cons a t ih =>
    simp only [completeArc, List.map_cons]
    by_cases hid : a.id = arcId
    · rw [if_pos hid]
      rw [List.filter_cons_of_neg (by simp)]
      exact ih (fun b hb hbc => h b (List.mem_cons_of_mem a hb) hbc)
    · rw [if_neg hid]
      have hac : a.completed = true := by
        by_contra hc
        exact hid (h a (List.mem_cons_self a t) (by simpa using hc))
      rw [List.filter_cons_of_neg (by simp [hac])]
      exact ih (fun b hb hbc => h b (List.mem_cons_of_mem a hb) hbc)

/-- **C2 (amended).** If the store has exactly one non-completed arc `arc` and
the session ends with `dayInArc ≥ targetDurationDays`, then: `completeArc` is
written exactly once; the final store again has exactly one non-completed arc,
namely the newly created one; but the *intermediate* state (after
`generateArcCompletion`'s `createArc`, before `completeArc`) transiently holds
two non-completed arcs — the claim's "never more than one non-completed arc at
every intermediate state" fails there, while the before/after states obey it. -/
theorem arc_completion_amended :
    ∀ (store : List ArcRec) (arc next : ArcRec) (dayInArc : ℕ),
      store.filter (fun a => !a.completed) = [arc] →
      next.completed = false →
      (∀ a ∈ store, a.id ≠ next.id) →
      arc.targetDurationDays ≤ dayInArc →
      extractAndEndSessionArcWrites false store dayInArc next
          = [.create next, .complete arc.id]
      ∧ (extractAndEndSessionArcWrites false store dayInArc next).countP
          (fun w => match w with | .complete _ => true | .create _ => false) = 1
      ∧ activeCount (completeArc (createArc store next) arc.id) = 1
      ∧ getActiveArc (completeArc (createArc store next) arc.id) = some next
      ∧ activeCount (createArc store next) = 2 := by
  intro store arc next dayInArc hone hnext hfresh hday
  have hactive : getActiveArc store = some arc := by
    unfold getActiveArc
    rw [find?_eq_head?_filter, hone]; rfl
  have harcmem : arc ∈ store := by
    have : arc ∈ store.filter (fun a => !a.completed) := by rw [hone]; exact List.mem_singleton_self arc
    exact List.mem_of_mem_filter this
  have hidne : next.id ≠ arc.id := fun h => hfresh arc harcmem h.symm
  have hw : extractAndEndSessionArcWrites false store dayInArc next
      = [.create next, .complete arc.id] := by
    unfold extractAndEndSessionArcWrites
    rw [if_neg (by simp), hactive]
    exact if_pos hday
  have honly : ∀ a ∈ store, a.completed = false → a.id = arc.id := by
    intro a ha hac
    have : a ∈ store.filter (fun a => !a.completed) := List.mem_filter.mpr ⟨ha, by simp [hac]⟩
    rw [hone, List.mem_singleton] at this
    rw [this]
  have hfilterfinal :
      (completeArc (createArc store next) arc.id).filter (fun a => !a.completed)
        = [next] := by
    unfold createArc completeArc
    rw [List.map_append, List.filter_append]
    have h1 : (store.map (fun a => if a.id = arc.id then { a with completed := true } else a)).filter
        (fun a => !a.completed) = [] := filter_complete_nil store arc.id honly
    have h2 : (([next].map (fun a => if a.id = arc.id then { a with completed := true } else a)).filter
        (fun a => !a.completed)) = [next] := by
      simp only [List.map_cons, List.map_nil, if_neg hidne]
      rw [List.filter_cons_of_pos (by simp [hnext])]
      rfl
    rw [h1, h2]
    rfl
  refine ⟨hw, ?_, ?_, ?_, ?_⟩
  · rw [hw]; rfl
  · unfold activeCount
    rw [hfilterfinal]
    rfl
  · unfold getActiveArc
    rw [find?_eq_head?_filter, hfilterfinal]
    rfl
  · unfold activeCount createArc
    rw [List.filter_append, hone]
    rw [List.filter_cons_of_pos (by simp [hnext])]
    rfl

theorem arc_completion_amended_witness :
    extractAndEndSessionArcWrites false [⟨0, 7, false⟩] 7 ⟨1, 7, false⟩
        = [.create ⟨1, 7, false⟩, .complete 0]
    ∧ (extractAndEndSessionArcWrites false [⟨0, 7, false⟩] 7 ⟨1, 7, false⟩).countP
        (fun w => match w with | .complete _ => true | .create _ => false) = 1
    ∧ activeCount (completeArc (createArc [⟨0, 7, false⟩] ⟨1, 7, false⟩) 0) = 1
    ∧ getActiveArc (completeArc (createArc [⟨0, 7, false⟩] ⟨1, 7, false⟩) 0) = some ⟨1, 7, false⟩
    ∧ activeCount (createArc [⟨0, 7, false⟩] ⟨1, 7, false⟩) = 2 :=
  arc_completion_amended [⟨0, 7, false⟩] ⟨0, 7, false⟩ ⟨1, 7, false⟩ 7
    (by decide) (by decide) (by decide) (by decide)

/-! ## Link resolution (`services/linkValidator.ts`, the version with
`MusicSearchOptions` imported by the current `generateDailyBundle`)

External I/O (the iTunes fetch, the Wikimedia/Google calls,
`decodeURIComponent`) is modelled by oracle parameters; a call that can throw
is `Except`-valued, a helper that catches internally is `Option`-valued.
String processing (`normalizeString`, `stringsMatch`, keyword extraction,
query-list construction, result filtering) is translated directly. -/

structure ITunesTrack where
  trackName : String
  artistName : String
  trackViewUrl : String
deriving DecidableEq, Repr

def isAsciiAlphaNum (c : Char) : Bool :=
  ('a' ≤ c ∧ c ≤ 'z') ∨ ('0' ≤ c ∧ c ≤ '9')

/-- `normalizeString`: lowercase, strip diacritics, remove `[^a-z0-9\s]`,
collapse whitespace, trim.  The `normalize('NFD')` + combining-mark strip is
modelled by removing the combining range U+0300–U+036F; precomposed accented
letters are then removed by the `[^a-z0-9\s]` filter (in the source they are
first decomposed; the claims proved below do not depend on accented input). -/
def normalizeString (s : String) : String :=
  ⟨jsTrim (collapseWs (((s.data.map jsLower).filter
      (fun c => ¬(768 ≤ c.toNat ∧ c.toNat ≤ 879))).filter
      (fun c => isAsciiAlphaNum c || isJsWs c)))⟩

/-- `hay.includes(sub)` on character lists. -/
def listIncludes (hay sub : List Char) : Bool :=
  match hay with
  | [] => sub.isEmpty
  | _ :: t => sub.isPrefixOf hay || listIncludes t sub

/-- `stringsMatch`: one normalized string contains the other. -/
def stringsMatch (a b : String) : Bool :=
  let na := (normalizeString a).data
  let nb := (normalizeString b).data
  listIncludes na nb || listIncludes nb na

/-- `split(' ')`: cut at every single space character. -/
def splitOnSpaceAux (cur : List Char) : List Char → List (List Char)
  | [] => [cur.reverse]
  | c :: t =>
    if c = ' ' then cur.reverse :: splitOnSpaceAux [] t
    else splitOnSpaceAux (c :: cur) t

/-- `normalizeString(title).split(' ').filter(w => w.length > 1)`. -/
def titleKeywords (title : String) : List String :=
  ((splitOnSpaceAux [] (normalizeString title).data).map
    (fun l => (⟨l⟩ : String))).filter (fun w => 1 < w.length)

/-- Number of title keywords contained in the normalized track name. -/
def keywordHits (title trackName : String) : ℕ :=
  ((titleKeywords title).filter
    (fun kw => listIncludes (normalizeString trackName).data kw.data)).length

structure MusicSearchOptions where
  composer : Option String := none
  performer : Option String := none
  isClassical : Option Bool := none
deriving DecidableEq, Repr

/-- JavaScript truthiness of an optional string (`undefined` and `''` are falsy). -/
def optTruthy : Option String → Bool
  | some s => s ≠ ""
  | none => false

def boolTruthy : Option Bool → Bool
  | some b => b
  | none => false

/-- `isClassical && composer` guard. -/
def classicalMode (opts : MusicSearchOptions) : Bool :=
  boolTruthy opts.isClassical && optTruthy opts.composer

/-- `searches.filter((q, i, arr) => q && arr.indexOf(q) === i)`. -/
def dedupKeep (seen : List String) : List String → List String
  | [] => []
  | q :: rest =>
    if q = "" ∨ q ∈ seen then dedupKeep seen rest
    else q :: dedupKeep (q :: seen) rest

def buildMusicSearches (title artist searchQuery : String)
    (opts : MusicSearchOptions) : List String :=
  let kw := String.intercalate " " ((titleKeywords title).take 3)
  let base :=
    if classicalMode opts then
      let composer := opts.composer.getD ""
      [composer ++ " " ++ title, title ++ " " ++ composer, searchQuery, title]
        ++ (match opts.performer with
            | some p => if p ≠ "" then [p ++ " " ++ title, p ++ " " ++ composer] else []
            | none => [])
        ++ [composer ++ " " ++ kw]
    else
      [title ++ " " ++ artist, searchQuery, artist ++ " " ++ title, title,
        artist ++ " " ++ kw]
  dedupKeep [] base

/-- Classical branch: accept when the reported artist is the composer, the
(truthy) performer, or the listed artist. -/
def classicalArtistOk (artist : String) (opts : MusicSearchOptions)
    (r : ITunesTrack) : Bool :=
  stringsMatch r.artistName (opts.composer.getD "")
    || (match opts.performer with
        | some p => decide (p ≠ "") && stringsMatch r.artistName p
        | none => false)
    || stringsMatch r.artistName artist

def artistRule (artist : String) (opts : MusicSearchOptions) (r : ITunesTrack) : Bool :=
  if classicalMode opts then classicalArtistOk artist opts r
  else stringsMatch r.artistName artist

/-- First pass over one result page: exact/fuzzy title match plus artist rule. -/
def passTitle (title artist : String) (opts : MusicSearchOptions)
    (rs : List ITunesTrack) : Option ITunesTrack :=
  rs.find? (fun r => stringsMatch r.trackName title && artistRule artist opts r)

/-- Second pass: at least `min 2 |keywords|` title keywords plus artist rule. -/
def passKeyword (title artist : String) (opts : MusicSearchOptions)
    (rs : List ITunesTrack) : Option ITunesTrack :=
  rs.find? (fun r =>
    decide (min 2 (titleKeywords title).length ≤ keywordHits title r.trackName)
      && artistRule artist opts r)

def pickTrack (title artist : String) (opts : MusicSearchOptions)
    (rs : List ITunesTrack) : Option ITunesTrack :=
  match passTitle title artist opts rs with
  | some r => some r
  | none => passKeyword title artist opts rs

/-- Outcome of one iTunes `fetch`: the promise rejects (propagates to the
outer `catch`), returns a non-ok status (logged, `continue`), or a result page. -/
inductive MusicFetchOutcome where
  | throw
  | badStatus
  | ok (results : List ITunesTrack)

structure ResolvedMusic where
  appleMusicUrl : String
deriving DecidableEq, Repr

def musicSearchLoop (fetch : String → MusicFetchOutcome) (title artist : String)
    (opts : MusicSearchOptions) : List String → Except Unit (Option ITunesTrack)
  | [] => .ok none
  | q :: rest =>
    match fetch q with
    | .throw => .error ()
    | .badStatus => musicSearchLoop fetch title artist opts rest
    | .ok rs =>
      match pickTrack title artist opts rs with
      | some r => .ok (some r)
      | none => musicSearchLoop fetch title artist opts rest

def resolveAppleMusicLinkBody (fetch : String → MusicFetchOutcome)
    (title artist searchQuery : String) (opts : MusicSearchOptions) :
    Except Unit (Option ResolvedMusic) :=
  match musicSearchLoop fetch title artist opts
      (buildMusicSearches title artist searchQuery opts) with
  | .error e => .error e
  | .ok none => .ok none
  | .ok (some r) => .ok (some ⟨r.trackViewUrl⟩)

/-- `resolveAppleMusicLink`: the whole body sits in `try … catch { return null }`. -/
def resolveAppleMusicLink (fetch : String → MusicFetchOutcome)
    (title artist searchQuery : String) (opts : MusicSearchOptions) :
    Except Unit (Option ResolvedMusic) :=
  match resolveAppleMusicLinkBody fetch title artist searchQuery opts with
  | .error _ => .ok none
  | .ok v => .ok v

theorem musicSearchLoop_some (fetch : String → MusicFetchOutcome)
    (title artist : String) (opts : MusicSearchOptions) :
    ∀ (qs : List String) (r : ITunesTrack),
      musicSearchLoop fetch title artist opts qs = .ok (some r) →
      ∃ q ∈ qs, ∃ rs, fetch q = .ok rs ∧ pickTrack title artist opts rs = some r := by
  intro qs
  induction qs with
  | nil => intro r h; simp [musicSearchLoop] at h
  | cons q rest ih =>
    intro r h
    simp only [musicSearchLoop] at h
    split at h
    · cases h
    · obtain ⟨q', hq', rs, hrs, hpick⟩ := ih r h
      exact ⟨q', List.mem_cons_of_mem q hq', rs, hrs, hpick⟩
    · rename_i rs heq
      split at h
      · rename_i r' hp
        cases h
        exact ⟨q, List.mem_cons_self q rest, rs, heq, hp⟩
      · rename_i hp
        obtain ⟨q', hq', rs', hrs', hpick'⟩ := ih r h
        exact ⟨q', List.mem_cons_of_mem q hq', rs', hrs', hpick'⟩

theorem artistRule_spec (artist : String) (opts : MusicSearchOptions)
    (r : ITunesTrack) (h : artistRule artist opts r = true) :
    stringsMatch r.artistName artist = true
    ∨ (∃ comp, opts.composer = some comp ∧ stringsMatch r.artistName comp = true)
    ∨ (∃ perf, opts.performer = some perf ∧ stringsMatch r.artistName perf = true) := by
  unfold artistRule at h
  by_cases hc : classicalMode opts = true
  · rw [if_pos (by simpa using hc)] at h
    unfold classicalArtistOk at h
    rcases Bool.or_eq_true_iff.mp h with h1 | h1
    · rcases Bool.or_eq_true_iff.mp h1 with h2 | h2
      · -- composer branch: classicalMode forces a truthy composer
        have htru : optTruthy opts.composer = true :=
          (Bool.and_eq_true_iff.mp hc).2
        cases hcomp : opts.composer with
        | none => rw [hcomp] at htru; cases htru
        | some comp =>
          refine Or.inr (Or.inl ⟨comp, rfl, ?_⟩)
          rw [hcomp] at h2
          simpa using h2
      · -- performer branch
        cases hperf : opts.performer with
        | none => rw [hperf] at h2; cases h2
        | some perf =>
          rw [hperf] at h2
          rcases Bool.and_eq_true_iff.mp h2 with ⟨_, hm⟩
          exact Or.inr (Or.inr ⟨perf, rfl, hm⟩)
    · exact Or.inl h1
  · rw [if_neg (by simpa using hc)] at h
    exact Or.inl h

theorem pickTrack_spec (title artist : String) (opts : MusicSearchOptions)
    (rs : List ITunesTrack) (r : ITunesTrack)
    (h : pickTrack title artist opts rs = some r) :
    r ∈ rs
    ∧ (stringsMatch r.trackName title = true
        ∨ min 2 (titleKeywords title).length ≤ keywordHits title r.trackName)
    ∧ (stringsMatch r.artistName artist = true
        ∨ (∃ comp, opts.composer = some comp ∧ stringsMatch r.artistName comp = true)
        ∨ (∃ perf, opts.performer = some perf ∧ stringsMatch r.artistName perf = true)) := by
  unfold pickTrack at h
  cases h1 : passTitle title artist opts rs with
  | some r' =>
    rw [h1] at h
    cases h
    have hmem := List.mem_of_find?_eq_some h1
    have hpred := List.find?_some h1
    rcases Bool.and_eq_true_iff.mp hpred with ⟨ht, ha⟩
    exact ⟨hmem, Or.inl ht, artistRule_spec artist opts r ha⟩
  | none =>
    rw [h1] at h
    have hmem := List.mem_of_find?_eq_some h
    have hpred := List.find?_some h
    rcases Bool.and_eq_true_iff.mp hpred with ⟨ht, ha⟩
    refine ⟨hmem, Or.inr (by simpa using ht), artistRule_spec artist opts r ha⟩

/-- **C3.** Whenever `resolveAppleMusicLink` returns a link, the link is the
`trackViewUrl` of a fetched catalog entry whose title fuzzy-matches the
proposed title (containment either way, or the keyword rule), *and* whose
reported artist matches the stated artist, composer, or performer.  In
particular it never returns a track on the strength of an artist match alone. -/
theorem resolveAppleMusicLink_match_rule
    (fetch : String → MusicFetchOutcome) (title artist searchQuery : String)
    (opts : MusicSearchOptions) (m : ResolvedMusic)
    (h : resolveAppleMusicLink fetch title artist searchQuery opts = .ok (some m)) :
    ∃ q ∈ buildMusicSearches title artist searchQuery opts, ∃ rs, ∃ r ∈ rs,
      fetch q = .ok rs
      ∧ m.appleMusicUrl = r.trackViewUrl
      ∧ (stringsMatch r.trackName title = true
          ∨ min 2 (titleKeywords title).length ≤ keywordHits title r.trackName)
      ∧ (stringsMatch r.artistName artist = true
          ∨ (∃ comp, opts.composer = some comp ∧ stringsMatch r.artistName comp = true)
          ∨ (∃ perf, opts.performer = some perf ∧ stringsMatch r.artistName perf = true)) := by
  unfold resolveAppleMusicLink at h
  cases hb : resolveAppleMusicLinkBody fetch title artist searchQuery opts with
  | error e => rw [hb] at h; cases h
  | ok v =>
    rw [hb] at h
    cases h
    unfold resolveAppleMusicLinkBody at hb
    cases hl : musicSearchLoop fetch title artist opts
        (buildMusicSearches title artist searchQuery opts) with
    | error e => rw [hl] at hb; cases hb
    | ok o =>
      rw [hl] at hb
      cases o with
      | none => cases hb
      | some r =>
        cases hb
        obtain ⟨q, hq, rs, hrs, hpick⟩ :=
          musicSearchLoop_some fetch title artist opts _ r hl
        obtain ⟨hmem, htitle, hartist⟩ := pickTrack_spec title artist opts rs r hpick
        exact ⟨q, hq, rs, r, hmem, hrs, rfl, htitle, hartist⟩

def exampleMusicFetch : String → MusicFetchOutcome := fun q =>
  if q = "Clair de Lune Claude Debussy" then
    .ok [⟨"Clair de Lune", "Claude Debussy", "https://music.example/clair"⟩]
  else .badStatus

theorem resolveAppleMusicLink_match_rule_witness :
    ∃ q ∈ buildMusicSearches "Clair de Lune" "Claude Debussy" "debussy clair de lune" {},
      ∃ rs, ∃ r ∈ rs,
        exampleMusicFetch q = .ok rs
        ∧ (ResolvedMusic.mk "https://music.example/clair").appleMusicUrl = r.trackViewUrl
        ∧ (stringsMatch r.trackName "Clair de Lune" = true
            ∨ min 2 (titleKeywords "Clair de Lune").length
                ≤ keywordHits "Clair de Lune" r.trackName)
        ∧ (stringsMatch r.artistName "Claude Debussy" = true
            ∨ (∃ comp, ({} : MusicSearchOptions).composer = some comp
                ∧ stringsMatch r.artistName comp = true)
            ∨ (∃ perf, ({} : MusicSearchOptions).performer = some perf
                ∧ stringsMatch r.artistName perf = true)) :=
  resolveAppleMusicLink_match_rule exampleMusicFetch "Clair de Lune" "Claude Debussy"
    "debussy clair de lune" {} ⟨"https://music.example/clair"⟩ rfl

/-! ### Image resolution (`resolveImageLink`) -/

structure SearchResult where
  title : String
  link : String
deriving DecidableEq, Repr

structure ResolvedImage where
  sourceUrl : String
  imageUrl : String
deriving DecidableEq, Repr

/-- External collaborators of `resolveImageLink`.  `commons` and `wikiImage`
catch internally (`searchWikimediaCommons`, `getWikimediaImageUrl`); `google`
throws on a non-ok status; `decodeURIComponent` can throw `URIError`. -/
structure ImageSearchEnv where
  commons : String → Option ResolvedImage
  google : String → Except Unit (List SearchResult)
  decodeURIComponent : String → Except Unit String
  wikiImage : String → Option String

def jsTrimStr (s : String) : String := ⟨jsTrim s.data⟩

/-- `[searchQuery, title+artist, artist+title, title].filter((q,i,arr) => q && q.trim() && indexOf(q)===i)`. -/
def dedupKeepTrim (seen : List String) : List String → List String
  | [] => []
  | q :: rest =>
    if q = "" ∨ jsTrimStr q = "" ∨ q ∈ seen then dedupKeepTrim seen rest
    else q :: dedupKeepTrim (q :: seen) rest

/-- Remainder of the list after the first occurrence of `marker`. -/
def afterMarker (marker : List Char) : List Char → Option (List Char)
  | [] => none
  | c :: t =>
    if marker.isPrefixOf (c :: t) then some ((c :: t).drop marker.length)
    else afterMarker marker t

/-- `link.match(/wikipedia\.org\/wiki\/([^#?]+)/)`, modelled at the first
occurrence of the marker: the capture is the nonempty run of characters other
than `#`/`?` that follows it. -/
def extractWikiPageTitle (link : String) : Option String :=
  match afterMarker ("wikipedia.org/wiki/".data) link.data with
  | none => none
  | some rest =>
    let captured := rest.takeWhile (fun c => c ≠ '#' ∧ c ≠ '?')
    if captured = [] then none else some ⟨captured⟩

def imageCommonsLoop (env : ImageSearchEnv) : List String → Option ResolvedImage
  | [] => none
  | q :: rest =>
    match env.commons q with
    | some r => some r
    | none => imageCommonsLoop env rest

def imageGoogleLoop (env : ImageSearchEnv) :
    List SearchResult → Except Unit (Option ResolvedImage)
  | [] => .ok none
  | r :: rest =>
    if listIncludes r.link.data ("wikipedia.org/wiki/".data) then
      match extractWikiPageTitle r.link with
      | none => imageGoogleLoop env rest
      | some rawTitle =>
        match env.decodeURIComponent rawTitle with
        | .error e => .error e
        | .ok pageTitle =>
          match env.wikiImage pageTitle with
          | some imageUrl => .ok (some ⟨r.link, imageUrl⟩)
          | none => imageGoogleLoop env rest
    else imageGoogleLoop env rest

def resolveImageLinkBody (env : ImageSearchEnv) (title artist searchQuery : String) :
    Except Unit (Option ResolvedImage) :=
  let searches := dedupKeepTrim []
    [searchQuery, title ++ " " ++ artist, artist ++ " " ++ title, title]
  match imageCommonsLoop env searches with
  | some r => .ok (some r)
  | none =>
    let googleQuery := if searchQuery ≠ "" then searchQuery
      else title ++ " " ++ artist ++ " wikipedia"
    match env.google googleQuery with
    | .error e => .error e
    | .ok results => imageGoogleLoop env results

/-- `resolveImageLink`: the whole body sits in `try … catch { return null }`. -/
def resolveImageLink (env : ImageSearchEnv) (title artist searchQuery : String) :
    Except Unit (Option ResolvedImage) :=
  match resolveImageLinkBody env title artist searchQuery with
  | .error _ => .ok none
  | .ok v => .ok v

/-- **C10.** Whatever the external search services do — error statuses,
thrown exceptions from `fetch`, `googleSearch` or `decodeURIComponent` — both
resolvers return normally with a resolved reference or `null`; they never
propagate an exception.  (Without the outer `catch`, the bodies *can* end in
an error: the theorem holds because every body outcome, error included, is
mapped to a normal return.) -/
theorem resolvers_never_throw :
    (∀ (fetch : String → MusicFetchOutcome) (title artist searchQuery : String)
        (opts : MusicSearchOptions),
      ∃ o, resolveAppleMusicLink fetch title artist searchQuery opts = .ok o)
    ∧ (∀ (env : ImageSearchEnv) (title artist searchQuery : String),
      ∃ o, resolveImageLink env title artist searchQuery = .ok o) := by
  constructor
  · intro fetch title artist searchQuery opts
    unfold resolveAppleMusicLink
    cases resolveAppleMusicLinkBody fetch title artist searchQuery opts with
    | error e => exact ⟨none, rfl⟩
    | ok v => exact ⟨v, rfl⟩
  · intro env title artist searchQuery
    unfold resolveImageLink
    cases resolveImageLinkBody env title artist searchQuery with
    | error e => exact ⟨none, rfl⟩
    | ok v => exact ⟨v, rfl⟩

/-! ## The daily bundle pipeline (`services/bundleGenerator.ts`,
`generateDailyBundle`)

The structured-generation client and the two resolvers are oracle fields of
`GenEnv`; store writes and external calls are recorded as events, so the
claims about ordering ("framing only after all retry loops") and persistence
("no partial bundle on failure") are statements about the returned event
trace.  A failed `generateJSON` call is an `Except.error` that the source
does not catch, so it short-circuits the rest of the pipeline exactly as the
thrown exception does. -/

inductive ArtifactType where
  | music
  | image
  | text
deriving DecidableEq, Repr

structure Exposure where
  artifactType : ArtifactType
  artifactIdentifier : String
  creator : Option String
deriving DecidableEq, Repr

structure MusicSelection where
  title : String
  artist : String
  composer : Option String := none
  performer : Option String := none
  isClassical : Option Bool := none
  searchQuery : String := ""
deriving DecidableEq, Repr

structure ImageSelection where
  title : String
  artist : String
  searchQuery : String := ""
deriving DecidableEq, Repr

structure TextSelection where
  content : String
  source : String
  author : String
deriving DecidableEq, Repr

structure LLMBundleSelection where
  music : MusicSelection
  image : ImageSelection
  text : TextSelection
deriving DecidableEq, Repr

structure CoherenceIssue where
  type : ArtifactType
  problem : String := ""
  suggestion : String := ""
deriving DecidableEq, Repr

structure CoherenceCheck where
  isCoherent : Bool
  issues : List CoherenceIssue
deriving DecidableEq, Repr

structure FramingResponse where
  framingText : String
deriving DecidableEq, Repr

structure BundleMusic where
  title : String
  artist : String
  composer : Option String
  performer : Option String
  appleMusicUrl : String
deriving DecidableEq, Repr

structure BundleImage where
  title : String
  artist : String
  sourceUrl : String
  imageUrl : String
deriving DecidableEq, Repr

structure BundleText where
  content : String
  source : String
  author : String
deriving DecidableEq, Repr

structure ArcInfo where
  id : String
  theme : String := ""
  targetDurationDays : ℕ
  currentPhase : Phase
deriving DecidableEq, Repr

structure DailyBundle where
  id : String
  arcId : String
  status : String
  music : BundleMusic
  image : BundleImage
  text : BundleText
  framingText : String
  tone : String
deriving DecidableEq, Repr

/-- A structured-generation failure (`generateJSON` could not coerce the
response to the expected shape). -/
inductive GenErr where
  | parse
deriving DecidableEq, Repr

/-! ### `generateJSON` (`services/anthropic.ts`): fence stripping + parse -/

/-- The fence-stripping in `generateJSON`: trim, drop a leading ```` ```json ````
or ```` ``` ````, drop a trailing ```` ``` ````, trim again. -/
def stripCodeFence (resp : String) : String :=
  let s1 := jsTrim resp.data
  let s2 :=
    if ("```json".data).isPrefixOf s1 then s1.drop 7
    else if ("```".data).isPrefixOf s1 then s1.drop 3
    else s1
  let s3 :=
    if (("```".data).reverse).isPrefixOf s2.reverse then s2.take (s2.length - 3)
    else s2
  ⟨jsTrim s3⟩

/-- `generateJSON`: parse the stripped response; `JSON.parse` failure is an
uncaught exception, modelled as `Except.error .parse`. -/
def generateJSON {α : Type} (parse : String → Option α) (resp : String) :
    Except GenErr α :=
  match parse (stripCodeFence resp) with
  | some v => .ok v
  | none => .error .parse

/-! ### Events and the pipeline state -/

inductive PipelineEvent where
  | updateArcPhaseWrite (p : Phase)
  | selectionCall
  | coherenceCall
  | cohImageReplaceCall
  | cohTextReplaceCall
  | resolveMusicCall (m : MusicSelection)
  | altMusicCall (failed : List MusicSelection)
  | resolveImageCall (i : ImageSelection)
  | altImageCall (failed : List ImageSelection)
  | altTextCall (failed : List TextSelection)
  | framingCall (m : MusicSelection) (i : ImageSelection) (t : TextSelection)
  | createBundleWrite (b : DailyBundle)
deriving DecidableEq, Repr

def PipeResult (α : Type) : Type := List PipelineEvent × Except GenErr α

def pmBind {α β : Type} (x : PipeResult α) (f : α → PipeResult β) : PipeResult β :=
  match x with
  | (evs, .error e) => (evs, .error e)
  | (evs, .ok a) => ((evs ++ (f a).1, (f a).2) : PipeResult β)

def callGen {α : Type} (r : Except GenErr α) (e : PipelineEvent) : PipeResult α :=
  ([e], r)

structure GenEnv where
  arc : ArcInfo
  bundleCount : ℕ
  exposures : List Exposure
  selection : Except GenErr LLMBundleSelection
  coherence : MusicSelection → ImageSelection → TextSelection → Except GenErr CoherenceCheck
  cohImageReplace : ImageSelection → TextSelection → CoherenceIssue → Except GenErr ImageSelection
  cohTextReplace : TextSelection → ImageSelection → CoherenceIssue → Except GenErr TextSelection
  altMusic : List MusicSelection → Except GenErr MusicSelection
  altImage : List ImageSelection → Except GenErr ImageSelection
  altText : List TextSelection → Except GenErr TextSelection
  framing : MusicSelection → ImageSelection → TextSelection → Except GenErr FramingResponse
  resolveMusic : MusicSelection → Option ResolvedMusic
  resolveImage : ImageSelection → Option ResolvedImage

def MAX_MUSIC_RETRIES : ℕ := 5
def MAX_IMAGE_RETRIES : ℕ := 3
def MAX_TEXT_RETRIES : ℕ := 3

/-! ### Deduplication sets (step 5 and step 6 preambles) -/

/-- `if (e.artifactType === 'image' && e.artifactIdentifier) add(normalize(...))`. -/
def recentImageIdentifiers (exposures : List Exposure) : List String :=
  exposures.filterMap (fun e =>
    if e.artifactType = .image ∧ e.artifactIdentifier ≠ "" then
      some (normalizeCreatorName e.artifactIdentifier)
    else none)

/-- `normalizeCreatorName(title + " - " + artist)` membership in the recent set. -/
def isRecentImageDuplicate (exposures : List Exposure) (img : ImageSelection) : Bool :=
  (recentImageIdentifiers exposures).contains
    (normalizeCreatorName (img.title ++ " - " ++ img.artist))

/-- `if (e.artifactType === 'text' && e.creator) add(normalize(creator))`. -/
def recentTextAuthors (exposures : List Exposure) : List String :=
  exposures.filterMap (fun e =>
    match e.creator with
    | some c =>
      if e.artifactType = .text ∧ c ≠ "" then some (normalizeCreatorName c) else none
    | none => none)

def isRecentTextAuthor (exposures : List Exposure) (t : TextSelection) : Bool :=
  (recentTextAuthors exposures).contains (normalizeCreatorName t.author)

/-! ### The three retry loops (§ steps 4–6).  `fuel` is the remaining budget
`MAX[type] - failedSelections.length`, so `0 < fuel` is the source's
`failedSelections.length < MAX[type]` guard. -/

def musicRetryLoop (env : GenEnv) (sel : MusicSelection)
    (link : Option ResolvedMusic) (failed : List MusicSelection) :
    ℕ → PipeResult (MusicSelection × Option ResolvedMusic)
  | 0 => ([], .ok (sel, link))
  | fuel + 1 =>
    match link with
    | some l => ([], .ok (sel, some l))
    | none =>
      let failed' := failed ++ [sel]
      match env.altMusic failed' with
      | .error e => ([.altMusicCall failed'], .error e)
      | .ok alt =>
        let r := musicRetryLoop env alt (env.resolveMusic alt) failed' fuel
        (.altMusicCall failed' :: .resolveMusicCall alt :: r.1, r.2)

def imageRetryLoop (env : GenEnv) (sel : ImageSelection)
    (link : Option ResolvedImage) (failed : List ImageSelection) :
    ℕ → PipeResult (ImageSelection × Option ResolvedImage)
  | 0 => ([], .ok (sel, link))
  | fuel + 1 =>
    if link.isNone || isRecentImageDuplicate env.exposures sel then
      let failed' := failed ++ [sel]
      match env.altImage failed' with
      | .error e => ([.altImageCall failed'], .error e)
      | .ok alt =>
        if isRecentImageDuplicate env.exposures alt then
          -- "Skip link resolution if this is also a duplicate": imageLink = null; continue
          let r := imageRetryLoop env alt none failed' fuel
          (.altImageCall failed' :: r.1, r.2)
        else
          let r := imageRetryLoop env alt (env.resolveImage alt) failed' fuel
          (.altImageCall failed' :: .resolveImageCall alt :: r.1, r.2)
    else ([], .ok (sel, link))

def textRetryLoop (env : GenEnv) (sel : TextSelection) (failed : List TextSelection) :
    ℕ → PipeResult TextSelection
  | 0 => ([], .ok sel)
  | fuel + 1 =>
    if isRecentTextAuthor env.exposures sel then
      let failed' := failed ++ [sel]
      match env.altText failed' with
      | .error e => ([.altTextCall failed'], .error e)
      | .ok alt =>
        let r := textRetryLoop env alt failed' fuel
        (.altTextCall failed' :: r.1, r.2)
    else ([], .ok sel)

/-! ### Pipeline stages -/

/-- Step 3: coherence validation, then one replacement per image/text issue
(music issues are not auto-repaired). -/
def applyCoherenceFixes (env : GenEnv) :
    List CoherenceIssue → ImageSelection → TextSelection →
    PipeResult (ImageSelection × TextSelection)
  | [], i, t => ([], .ok (i, t))
  | issue :: rest, i, t =>
    match issue.type with
    | .image =>
      pmBind (callGen (env.cohImageReplace i t issue) .cohImageReplaceCall)
        (fun i' => applyCoherenceFixes env rest i' t)
    | .text =>
      pmBind (callGen (env.cohTextReplace t i issue) .cohTextReplaceCall)
        (fun t' => applyCoherenceFixes env rest i t')
    | .music => applyCoherenceFixes env rest i t

def coherencePhase (env : GenEnv) (sel : LLMBundleSelection) :
    PipeResult (ImageSelection × TextSelection) :=
  pmBind (callGen (env.coherence sel.music sel.image sel.text) .coherenceCall)
    (fun check =>
      if check.isCoherent = false ∧ check.issues ≠ [] then
        applyCoherenceFixes env check.issues sel.image sel.text
      else ([], .ok (sel.image, sel.text)))

/-- Step 4: initial music resolution, then the retry loop. -/
def musicPhase (env : GenEnv) (m0 : MusicSelection) :
    PipeResult (MusicSelection × Option ResolvedMusic) :=
  let r := musicRetryLoop env m0 (env.resolveMusic m0) [] MAX_MUSIC_RETRIES
  (.resolveMusicCall m0 :: r.1, r.2)

/-- Step 5: initial image resolution, then the retry loop with duplicate check. -/
def imagePhase (env : GenEnv) (i0 : ImageSelection) :
    PipeResult (ImageSelection × Option ResolvedImage) :=
  let r := imageRetryLoop env i0 (env.resolveImage i0) [] MAX_IMAGE_RETRIES
  (.resolveImageCall i0 :: r.1, r.2)

/-- Step 8: the persisted record, built from the final selections and links
(`composer`/`performer` spread only when truthy; missing links become `''`). -/
def optSpread : Option String → Option String
  | some s => if s = "" then none else some s
  | none => none

def mkDailyBundle (bundleId : String) (arc : ArcInfo) (tone : String)
    (m : MusicSelection) (mlink : Option ResolvedMusic)
    (i : ImageSelection) (ilink : Option ResolvedImage)
    (t : TextSelection) (fr : FramingResponse) : DailyBundle where
  id := bundleId
  arcId := arc.id
  status := "draft"
  music :=
    { title := m.title, artist := m.artist
      composer := optSpread m.composer, performer := optSpread m.performer
      appleMusicUrl := match mlink with | some l => l.appleMusicUrl | none => "" }
  image :=
    { title := i.title, artist := i.artist
      sourceUrl := match ilink with | some l => l.sourceUrl | none => ""
      imageUrl := match ilink with | some l => l.imageUrl | none => "" }
  text := { content := t.content, source := t.source, author := t.author }
  framingText := fr.framingText
  tone := tone

/-- Step 7 + step 8: framing with the final artifacts, then persistence. -/
def finalPhase (env : GenEnv) (bundleId tone : String)
    (m : MusicSelection × Option ResolvedMusic)
    (i : ImageSelection × Option ResolvedImage) (t : TextSelection) :
    PipeResult DailyBundle :=
  pmBind (callGen (env.framing m.1 i.1 t) (.framingCall m.1 i.1 t))
    (fun fr =>
      ([.createBundleWrite (mkDailyBundle bundleId env.arc tone m.1 m.2 i.1 i.2 t fr)],
        .ok (mkDailyBundle bundleId env.arc tone m.1 m.2 i.1 i.2 t fr)))

def generateDailyBundle (env : GenEnv) (bundleId tone : String) : PipeResult DailyBundle :=
  let dayInArc := generationDayInArc env.bundleCount
  let currentPhase := determinePhase (dayInArc : ℚ) (env.arc.targetDurationDays : ℚ)
  let phaseEvents : List PipelineEvent :=
    if currentPhase ≠ env.arc.currentPhase then [.updateArcPhaseWrite currentPhase] else []
  let rest :=
    pmBind (callGen env.selection .selectionCall) (fun sel =>
    pmBind (coherencePhase env sel) (fun it =>
    pmBind (musicPhase env sel.music) (fun ml =>
    pmBind (imagePhase env it.1) (fun il =>
    pmBind (textRetryLoop env it.2 [] MAX_TEXT_RETRIES) (fun tsel =>
    finalPhase env bundleId tone ml il tsel)))))
  (phaseEvents ++ rest.1, rest.2)

/-! ### Trace decomposition -/

theorem pmBind_error_def {α β : Type} (evs : List PipelineEvent) (e : GenErr)
    (f : α → PipeResult β) :
    pmBind (evs, Except.error e) f = ((evs, Except.error e) : PipeResult β) := rfl

theorem pmBind_ok_def {α β : Type} (evs : List PipelineEvent) (a : α)
    (f : α → PipeResult β) :
    pmBind (evs, Except.ok a) f = ((evs ++ (f a).1, (f a).2) : PipeResult β) := rfl

theorem callGen_def {α : Type} (r : Except GenErr α) (e : PipelineEvent) :
    callGen r e = (([e], r) : PipeResult α) := rfl

theorem pmBind_eq_error {α β : Type} (x : PipeResult α) (f : α → PipeResult β)
    (tr : List PipelineEvent) (e : GenErr) :
    pmBind x f = (tr, .error e) ↔
      x = (tr, .error e)
      ∨ ∃ evs a evs', x = (evs, .ok a) ∧ f a = (evs', .error e) ∧ tr = evs ++ evs' := by
  obtain ⟨evs, r⟩ := x
  cases r with
  | error e' =>
    rw [pmBind_error_def]
    constructor
    · intro h
      rw [Prod.mk.injEq] at h
      obtain ⟨h1, h2⟩ := h
      cases h2
      exact Or.inl (by rw [h1])
    · rintro (h | ⟨evs', a, evs'', hx, _, _⟩)
      · rw [Prod.mk.injEq] at h
        obtain ⟨h1, h2⟩ := h
        cases h2
        rw [Prod.mk.injEq]
        exact ⟨h1, rfl⟩
      · cases hx
  | ok a =>
    rw [pmBind_ok_def]
    constructor
    · intro h
      rw [Prod.mk.injEq] at h
      refine Or.inr ⟨evs, a, (f a).1, rfl, ?_, h.1.symm⟩
      have hfa : f a = ((f a).1, (f a).2) := rfl
      rw [hfa, h.2]
    · rintro (h | ⟨evs', a', evs'', hx, hf, htr⟩)
      · rw [Prod.mk.injEq] at h
        exact absurd h.2 (by intro hcon; cases hcon)
      · cases hx
        rw [Prod.mk.injEq, hf]
        exact ⟨htr.symm, rfl⟩

theorem pmBind_eq_ok {α β : Type} (x : PipeResult α) (f : α → PipeResult β)
    (tr : List PipelineEvent) (b : β) :
    pmBind x f = (tr, .ok b) ↔
      ∃ evs a evs', x = (evs, .ok a) ∧ f a = (evs', .ok b) ∧ tr = evs ++ evs' := by
  obtain ⟨evs, r⟩ := x
  cases r with
  | error e' =>
    rw [pmBind_error_def]
    constructor
    · intro h
      rw [Prod.mk.injEq] at h
      exact absurd h.2 (by intro hcon; cases hcon)
    · rintro ⟨evs', a, evs'', hx, _, _⟩; cases hx
  | ok a =>
    rw [pmBind_ok_def]
    constructor
    · intro h
      rw [Prod.mk.injEq] at h
      refine ⟨evs, a, (f a).1, rfl, ?_, h.1.symm⟩
      have hfa : f a = ((f a).1, (f a).2) := rfl
      rw [hfa, h.2]
    · rintro ⟨evs', a', evs'', hx, hf, htr⟩
      cases hx
      rw [Prod.mk.injEq, hf]
      exact ⟨htr.symm, rfl⟩

def isAltMusicEvent : PipelineEvent → Bool
  | .altMusicCall _ => true
  | _ => false

def isAltImageEvent : PipelineEvent → Bool
  | .altImageCall _ => true
  | _ => false

def isAltTextEvent : PipelineEvent → Bool
  | .altTextCall _ => true
  | _ => false

def isFramingEvent : PipelineEvent → Bool
  | .framingCall _ _ _ => true
  | _ => false

def isCreateBundleEvent : PipelineEvent → Bool
  | .createBundleWrite _ => true
  | _ => false

/-! ### Which events each stage can emit -/

theorem musicRetryLoop_mem (env : GenEnv) :
    ∀ (fuel : ℕ) (sel : MusicSelection) (link : Option ResolvedMusic)
      (failed : List MusicSelection) (ev : PipelineEvent),
      ev ∈ (musicRetryLoop env sel link failed fuel).1 →
      (∃ fs, ev = .altMusicCall fs) ∨ (∃ m, ev = .resolveMusicCall m) := by
  intro fuel
  induction fuel with
  | zero => intro sel link failed ev h; simp [musicRetryLoop] at h
  | succ n ih =>
    intro sel link failed ev h
    simp only [musicRetryLoop] at h
    cases link with
    | some l => simp at h
    | none =>
      cases halt : env.altMusic (failed ++ [sel]) with
      | error e =>
        rw [halt] at h
        simp only [List.mem_singleton] at h
        exact Or.inl ⟨_, h⟩
      | ok alt =>
        rw [halt] at h
        simp only [List.mem_cons] at h
        rcases h with h | h | h
        · exact Or.inl ⟨_, h⟩
        · exact Or.inr ⟨_, h⟩
        · exact ih alt _ _ ev h

theorem imageRetryLoop_mem (env : GenEnv) :
    ∀ (fuel : ℕ) (sel : ImageSelection) (link : Option ResolvedImage)
      (failed : List ImageSelection) (ev : PipelineEvent),
      ev ∈ (imageRetryLoop env sel link failed fuel).1 →
      (∃ fs, ev = .altImageCall fs) ∨ (∃ i, ev = .resolveImageCall i) := by
  intro fuel
  induction fuel with
  | zero => intro sel link failed ev h; simp [imageRetryLoop] at h
  | succ n ih =>
    intro sel link failed ev h
    simp only [imageRetryLoop] at h
    by_cases hc : (link.isNone || isRecentImageDuplicate env.exposures sel) = true
    · rw [if_pos hc] at h
      cases halt : env.altImage (failed ++ [sel]) with
      | error e =>
        rw [halt] at h
        simp only [List.mem_singleton] at h
        exact Or.inl ⟨_, h⟩
      | ok alt =>
        rw [halt] at h
        dsimp only at h
        by_cases hd : isRecentImageDuplicate env.exposures alt = true
        · rw [if_pos hd] at h
          simp only [List.mem_cons] at h
          rcases h with h | h
          · exact Or.inl ⟨_, h⟩
          · exact ih alt _ _ ev h
        · rw [if_neg hd] at h
          simp only [List.mem_cons] at h
          rcases h with h | h | h
          · exact Or.inl ⟨_, h⟩
          · exact Or.inr ⟨_, h⟩
          · exact ih alt _ _ ev h
    · rw [if_neg hc] at h
      simp at h

theorem textRetryLoop_mem (env : GenEnv) :
    ∀ (fuel : ℕ) (sel : TextSelection) (failed : List TextSelection) (ev : PipelineEvent),
      ev ∈ (textRetryLoop env sel failed fuel).1 →
      ∃ fs, ev = .altTextCall fs := by
  intro fuel
  induction fuel with
  | zero => intro sel failed ev h; simp [textRetryLoop] at h
  | succ n ih =>
    intro sel failed ev h
    simp only [textRetryLoop] at h
    by_cases hc : isRecentTextAuthor env.exposures sel = true
    · rw [if_pos hc] at h
      cases halt : env.altText (failed ++ [sel]) with
      | error e =>
        rw [halt] at h
        simp only [List.mem_singleton] at h
        exact ⟨_, h⟩
      | ok alt =>
        rw [halt] at h
        simp only [List.mem_cons] at h
        rcases h with h | h
        · exact ⟨_, h⟩
        · exact ih alt _ ev h
    · rw [if_neg hc] at h
      simp at h

theorem applyCoherenceFixes_mem (env : GenEnv) :
    ∀ (issues : List CoherenceIssue) (i : ImageSelection) (t : TextSelection)
      (ev : PipelineEvent),
      ev ∈ (applyCoherenceFixes env issues i t).1 →
      ev = .cohImageReplaceCall ∨ ev = .cohTextReplaceCall := by
  intro issues
  induction issues with
  | nil => intro i t ev h; simp [applyCoherenceFixes] at h
  | cons issue rest ih =>
    intro i t ev h
    simp only [applyCoherenceFixes] at h
    cases hty : issue.type with
    | image =>
      rw [hty] at h
      dsimp only at h
      cases hr : env.cohImageReplace i t issue with
      | error e =>
        rw [hr, callGen_def, pmBind_error_def] at h
        simp only [List.mem_singleton] at h
        exact Or.inl h
      | ok i' =>
        rw [hr, callGen_def, pmBind_ok_def] at h
        simp only [List.cons_append, List.nil_append, List.mem_cons] at h
        rcases h with h | h
        · exact Or.inl h
        · exact ih i' t ev h
    | text =>
      rw [hty] at h
      dsimp only at h
      cases hr : env.cohTextReplace t i issue with
      | error e =>
        rw [hr, callGen_def, pmBind_error_def] at h
        simp only [List.mem_singleton] at h
        exact Or.inr h
      | ok t' =>
        rw [hr, callGen_def, pmBind_ok_def] at h
        simp only [List.cons_append, List.nil_append, List.mem_cons] at h
        rcases h with h | h
        · exact Or.inr h
        · exact ih i t' ev h
    | music =>
      rw [hty] at h
      dsimp only at h
      exact ih i t ev h

theorem coherencePhase_mem (env : GenEnv) (sel : LLMBundleSelection)
    (ev : PipelineEvent) (h : ev ∈ (coherencePhase env sel).1) :
    ev = .coherenceCall ∨ ev = .cohImageReplaceCall ∨ ev = .cohTextReplaceCall := by
  unfold coherencePhase at h
  cases hc : env.coherence sel.music sel.image sel.text with
  | error e =>
    rw [hc, callGen_def, pmBind_error_def] at h
    simp only [List.mem_singleton] at h
    exact Or.inl h
  | ok check =>
    rw [hc, callGen_def, pmBind_ok_def] at h
    simp only [List.cons_append, List.nil_append, List.mem_cons] at h
    rcases h with h | h
    · exact Or.inl h
    · by_cases hif : check.isCoherent = false ∧ check.issues ≠ []
      · rw [if_pos hif] at h
        rcases applyCoherenceFixes_mem env check.issues sel.image sel.text ev h with h' | h'
        · exact Or.inr (Or.inl h')
        · exact Or.inr (Or.inr h')
      · rw [if_neg hif] at h
        simp at h

theorem musicPhase_mem (env : GenEnv) (m0 : MusicSelection) (ev : PipelineEvent)
    (h : ev ∈ (musicPhase env m0).1) :
    (∃ fs, ev = .altMusicCall fs) ∨ (∃ m, ev = .resolveMusicCall m) := by
  unfold musicPhase at h
  simp only [List.mem_cons] at h
  rcases h with h | h
  · exact Or.inr ⟨_, h⟩
  · exact musicRetryLoop_mem env _ _ _ _ ev h

theorem imagePhase_mem (env : GenEnv) (i0 : ImageSelection) (ev : PipelineEvent)
    (h : ev ∈ (imagePhase env i0).1) :
    (∃ fs, ev = .altImageCall fs) ∨ (∃ i, ev = .resolveImageCall i) := by
  unfold imagePhase at h
  simp only [List.mem_cons] at h
  rcases h with h | h
  · exact Or.inr ⟨_, h⟩
  · exact imageRetryLoop_mem env _ _ _ _ ev h

theorem finalPhase_error_shape (env : GenEnv) (bundleId tone : String)
    (m : MusicSelection × Option ResolvedMusic)
    (i : ImageSelection × Option ResolvedImage) (t : TextSelection)
    (evs : List PipelineEvent) (e : GenErr)
    (h : finalPhase env bundleId tone m i t = (evs, .error e)) :
    evs = [.framingCall m.1 i.1 t] := by
  unfold finalPhase at h
  cases hf : env.framing m.1 i.1 t with
  | error e' =>
    rw [hf, callGen_def, pmBind_error_def, Prod.mk.injEq] at h
    exact h.1.symm
  | ok fr =>
    rw [hf, callGen_def, pmBind_ok_def, Prod.mk.injEq] at h
    exact absurd h.2 (by intro hcon; cases hcon)

theorem finalPhase_ok_shape (env : GenEnv) (bundleId tone : String)
    (m : MusicSelection × Option ResolvedMusic)
    (i : ImageSelection × Option ResolvedImage) (t : TextSelection)
    (evs : List PipelineEvent) (b : DailyBundle)
    (h : finalPhase env bundleId tone m i t = (evs, .ok b)) :
    evs = [.framingCall m.1 i.1 t, .createBundleWrite b]
    ∧ ∃ fr, env.framing m.1 i.1 t = .ok fr
        ∧ b = mkDailyBundle bundleId env.arc tone m.1 m.2 i.1 i.2 t fr := by
  unfold finalPhase at h
  cases hf : env.framing m.1 i.1 t with
  | error e' =>
    rw [hf, callGen_def, pmBind_error_def, Prod.mk.injEq] at h
    exact absurd h.2 (by intro hcon; cases hcon)
  | ok fr =>
    rw [hf, callGen_def, pmBind_ok_def, Prod.mk.injEq] at h
    obtain ⟨h1, h2⟩ := h
    cases h2
    exact ⟨h1.symm, fr, rfl, rfl⟩

theorem pair_eta_ok {α : Type} (x : PipeResult α) {b : α} (h : x.2 = .ok b) :
    x = (x.1, Except.ok b) := by
  rw [← h]
  exact rfl

theorem pair_eta_error {α : Type} (x : PipeResult α) {e : GenErr} (h : x.2 = .error e) :
    x = (x.1, Except.error e) := by
  rw [← h]
  exact rfl

theorem mem_phaseEvents {c : Prop} [Decidable c] {p : Phase} {ev : PipelineEvent}
    (h : ev ∈ (if c then [PipelineEvent.updateArcPhaseWrite p] else [])) :
    ev = .updateArcPhaseWrite p := by
  by_cases hc : c
  · rw [if_pos hc] at h; simpa using h
  · rw [if_neg hc] at h; simp at h

/-- On an error result, every event of `pmBind x f` comes from `x`'s trace or
from the failing continuation's trace. -/
theorem pmBind_error_trace {α β : Type} (x : PipeResult α) (f : α → PipeResult β)
    (e : GenErr) (hres : (pmBind x f).2 = .error e) (ev : PipelineEvent)
    (hev : ev ∈ (pmBind x f).1)
    (hx : ∀ ev' ∈ x.1, isCreateBundleEvent ev' = false)
    (hf : ∀ a, (f a).2 = .error e → ∀ ev' ∈ (f a).1, isCreateBundleEvent ev' = false) :
    isCreateBundleEvent ev = false := by
  obtain ⟨evs, r⟩ := x
  cases r with
  | error e' =>
    rw [pmBind_error_def] at hev
    exact hx ev hev
  | ok a =>
    rw [pmBind_ok_def] at hres hev
    simp only [List.mem_append] at hev
    rcases hev with hev | hev
    · exact hx ev hev
    · exact hf a hres ev hev

/-- **C6.** A structured response that cannot be parsed is a hard error of
`generateJSON`; inside `generateDailyBundle` that error propagates to the
caller, and the failed invocation's trace contains no `createBundle` write —
the only store write it can contain is the earlier phase update. -/
theorem generation_failure_no_partial_bundle :
    (∀ (α : Type) (parse : String → Option α) (resp : String),
      parse (stripCodeFence resp) = none → generateJSON parse resp = .error .parse)
    ∧ ∀ (env : GenEnv) (bundleId tone : String) (tr : List PipelineEvent) (e : GenErr),
        generateDailyBundle env bundleId tone = (tr, .error e) →
        ∀ ev ∈ tr, isCreateBundleEvent ev = false := by
  constructor
  · intro α parse resp hp
    unfold generateJSON
    rw [hp]
  · intro env bundleId tone tr e h ev hev
    simp only [generateDailyBundle] at h
    rw [Prod.mk.injEq] at h
    obtain ⟨htr, hres⟩ := h
    rw [← htr] at hev
    simp only [List.mem_append] at hev
    rcases hev with hev | hev
    · rw [mem_phaseEvents hev]; rfl
    · refine pmBind_error_trace _ _ e hres ev hev ?_ ?_
      · intro ev' hev'
        rw [callGen_def] at hev'
        simp only [List.mem_singleton] at hev'
        rw [hev']; rfl
      · intro sel hres2 ev2 hev2
        refine pmBind_error_trace _ _ e hres2 ev2 hev2 ?_ ?_
        · intro ev' hev'
          rcases coherencePhase_mem env sel ev' hev' with h' | h' | h' <;> (rw [h']; rfl)
        · intro it hres3 ev3 hev3
          refine pmBind_error_trace _ _ e hres3 ev3 hev3 ?_ ?_
          · intro ev' hev'
            rcases musicPhase_mem env sel.music ev' hev' with ⟨_, h'⟩ | ⟨_, h'⟩ <;>
              (rw [h']; rfl)
          · intro ml hres4 ev4 hev4
            refine pmBind_error_trace _ _ e hres4 ev4 hev4 ?_ ?_
            · intro ev' hev'
              rcases imagePhase_mem env it.1 ev' hev' with ⟨_, h'⟩ | ⟨_, h'⟩ <;>
                (rw [h']; rfl)
            · intro il hres5 ev5 hev5
              refine pmBind_error_trace _ _ e hres5 ev5 hev5 ?_ ?_
              · intro ev' hev'
                obtain ⟨_, h'⟩ := textRetryLoop_mem env _ _ _ ev' hev'
                rw [h']; rfl
              · intro tsel hres6 ev6 hev6
                have hfp := pair_eta_error _ hres6
                have hshape := finalPhase_error_shape env bundleId tone ml il tsel _ e hfp
                rw [hshape] at hev6
                simp only [List.mem_singleton] at hev6
                rw [hev6]; rfl

/-- **C1.** On every successful invocation the trace ends with the framing
call immediately followed by the single `createBundle` write; the persisted
bundle is built from exactly the selections handed to the framing call, and
no framing or persistence event occurs anywhere earlier (in particular all
retry-loop events precede the framing call). -/
theorem framing_receives_persisted_artifacts :
    ∀ (env : GenEnv) (bundleId tone : String) (tr : List PipelineEvent) (b : DailyBundle),
      generateDailyBundle env bundleId tone = (tr, .ok b) →
      ∃ pre msel mlink isel ilink tsel fr,
        tr = pre ++ [.framingCall msel isel tsel, .createBundleWrite b]
        ∧ b = mkDailyBundle bundleId env.arc tone msel mlink isel ilink tsel fr
        ∧ ∀ ev ∈ pre, isFramingEvent ev = false ∧ isCreateBundleEvent ev = false := by
  intro env bundleId tone tr b h
  simp only [generateDailyBundle] at h
  rw [Prod.mk.injEq] at h
  obtain ⟨htr, hres⟩ := h
  have hR := pair_eta_ok _ hres
  obtain ⟨evs1, sel, evs1', hsel, hrest1, hcat1⟩ := (pmBind_eq_ok _ _ _ _).mp hR
  rw [callGen_def, Prod.mk.injEq] at hsel
  obtain ⟨hevs1, hselval⟩ := hsel
  obtain ⟨evs2, it, evs2', hcoh, hrest2, hcat2⟩ := (pmBind_eq_ok _ _ _ _).mp hrest1
  obtain ⟨evs3, ml, evs3', hmus, hrest3, hcat3⟩ := (pmBind_eq_ok _ _ _ _).mp hrest2
  obtain ⟨evs4, il, evs4', himg, hrest4, hcat4⟩ := (pmBind_eq_ok _ _ _ _).mp hrest3
  obtain ⟨evs5, tsel, evs5', htxt, hrest5, hcat5⟩ := (pmBind_eq_ok _ _ _ _).mp hrest4
  obtain ⟨hfinal, fr, hfr, hb⟩ := finalPhase_ok_shape env bundleId tone ml il tsel _ b hrest5
  refine ⟨(if determinePhase ((generationDayInArc env.bundleCount : ℚ))
        ((env.arc.targetDurationDays : ℚ)) ≠ env.arc.currentPhase then
        [PipelineEvent.updateArcPhaseWrite (determinePhase
          ((generationDayInArc env.bundleCount : ℚ)) ((env.arc.targetDurationDays : ℚ)))]
      else []) ++ (evs1 ++ (evs2 ++ (evs3 ++ (evs4 ++ evs5)))),
    ml.1, ml.2, il.1, il.2, tsel, fr, ?_, hb, ?_⟩
  · rw [← htr, hcat1, hcat2, hcat3, hcat4, hcat5, hfinal]
    simp [List.append_assoc]
  · intro ev hev
    simp only [List.mem_append] at hev
    rcases hev with hev | hev | hev | hev | hev | hev
    · rw [mem_phaseEvents hev]; exact ⟨rfl, rfl⟩
    · rw [← hevs1] at hev
      simp only [List.mem_singleton] at hev
      rw [hev]; exact ⟨rfl, rfl⟩
    · have : ev ∈ (coherencePhase env sel).1 := by
        rw [hcoh]; exact hev
      rcases coherencePhase_mem env sel ev this with h' | h' | h' <;>
        (rw [h']; exact ⟨rfl, rfl⟩)
    · have : ev ∈ (musicPhase env sel.music).1 := by
        rw [hmus]; exact hev
      rcases musicPhase_mem env sel.music ev this with ⟨_, h'⟩ | ⟨_, h'⟩ <;>
        (rw [h']; exact ⟨rfl, rfl⟩)
    · have : ev ∈ (imagePhase env it.1).1 := by
        rw [himg]; exact hev
      rcases imagePhase_mem env it.1 ev this with ⟨_, h'⟩ | ⟨_, h'⟩ <;>
        (rw [h']; exact ⟨rfl, rfl⟩)
    · have : ev ∈ (textRetryLoop env it.2 [] MAX_TEXT_RETRIES).1 := by
        rw [htxt]; exact hev
      obtain ⟨_, h'⟩ := textRetryLoop_mem env _ _ _ ev this
      rw [h']; exact ⟨rfl, rfl⟩

/-- **C4.** (1) A candidate whose resolution succeeded but whose normalized
`title - artist` identifier matches a trailing-window image exposure is still
rejected while budget remains: the loop immediately requests an alternative.
(2) A successfully resolved non-duplicate candidate is accepted on the spot.
(3) The music loop accepts every resolved candidate unconditionally — the
image duplicate check is the only site where a successfully resolved
candidate is rejected. -/
theorem image_duplicate_sole_rejection :
    ∀ (env : GenEnv) (sel : ImageSelection) (l : ResolvedImage)
      (failed : List ImageSelection) (fuel : ℕ),
      (isRecentImageDuplicate env.exposures sel = true →
        ∃ evs r, imageRetryLoop env sel (some l) failed (fuel + 1)
            = (.altImageCall (failed ++ [sel]) :: evs, r))
      ∧ (isRecentImageDuplicate env.exposures sel = false →
        imageRetryLoop env sel (some l) failed fuel = ([], .ok (sel, some l)))
      ∧ (∀ (msel : MusicSelection) (ml : ResolvedMusic) (mfailed : List MusicSelection),
          musicRetryLoop env msel (some ml) mfailed fuel = ([], .ok (msel, some ml))) := by
  intro env sel l failed fuel
  refine ⟨?_, ?_, ?_⟩
  · intro hdup
    simp only [imageRetryLoop]
    have hc : ((some l : Option ResolvedImage).isNone
        || isRecentImageDuplicate env.exposures sel) = true := by
      simp [hdup]
    rw [if_pos hc]
    cases halt : env.altImage (failed ++ [sel]) with
    | error e => exact ⟨[], .error e, rfl⟩
    | ok alt =>
      dsimp only
      by_cases hd : isRecentImageDuplicate env.exposures alt = true
      · rw [if_pos hd]
        exact ⟨_, _, rfl⟩
      · rw [if_neg hd]
        exact ⟨_, _, rfl⟩
  · intro hnd
    cases fuel with
    | zero => rfl
    | succ n =>
      simp only [imageRetryLoop]
      rw [if_neg (by simp [hnd])]
  · intro msel ml mfailed
    cases fuel with
    | zero => rfl
    | succ n => rfl

/-! ### Concrete environments for the end-to-end witnesses -/

def exM : MusicSelection := ⟨"Song", "Artist", none, none, none, "q"⟩
def exI : ImageSelection := ⟨"Pic", "Painter", "q2"⟩
def exT : TextSelection := ⟨"Quote", "Src", "Author"⟩

def exampleEnvOk : GenEnv where
  arc := ⟨"arc-1", "", 7, .early⟩
  bundleCount := 1
  exposures := []
  selection := .ok ⟨exM, exI, exT⟩
  coherence := fun _ _ _ => .ok ⟨true, []⟩
  cohImageReplace := fun i _ _ => .ok i
  cohTextReplace := fun t _ _ => .ok t
  altMusic := fun _ => .ok ⟨"Alt Song", "Alt Artist", none, none, none, ""⟩
  altImage := fun _ => .ok ⟨"Alt Pic", "Alt Painter", ""⟩
  altText := fun _ => .ok ⟨"Alt Quote", "Alt Src", "Alt Author"⟩
  framing := fun _ _ _ => .ok ⟨"frame"⟩
  resolveMusic := fun _ => some ⟨"https://music.example/x"⟩
  resolveImage := fun _ => some ⟨"https://commons.example/x", "https://img.example/x.jpg"⟩

/-- For the example arcs (bundle count 1, target 7, stored phase `early`) the
computed phase equals the stored one, so no phase write is emitted. -/
theorem phaseEvents_nil (env : GenEnv) (h1 : env.bundleCount = 1)
    (h7 : env.arc.targetDurationDays = 7) (he : env.arc.currentPhase = Phase.early) :
    (if determinePhase ((generationDayInArc env.bundleCount : ℚ))
        ((env.arc.targetDurationDays : ℚ)) ≠ env.arc.currentPhase
     then [PipelineEvent.updateArcPhaseWrite (determinePhase
        ((generationDayInArc env.bundleCount : ℚ)) ((env.arc.targetDurationDays : ℚ)))]
     else []) = [] := by
  rw [h1, h7, he]
  have hph : determinePhase ((generationDayInArc 1 : ℚ)) (((7 : ℕ) : ℚ)) = Phase.early := by
    have h2 : generationDayInArc 1 = 2 := rfl
    rw [h2]
    unfold determinePhase
    rw [if_pos (by push_cast; norm_num)]
  rw [hph]
  rw [if_neg (fun hcon => hcon rfl)]

def exampleBundleOk : DailyBundle :=
  mkDailyBundle "2025-01-01" exampleEnvOk.arc "calm" exM
    (some ⟨"https://music.example/x"⟩) exI
    (some ⟨"https://commons.example/x", "https://img.example/x.jpg"⟩) exT ⟨"frame"⟩

theorem framing_receives_persisted_artifacts_witness :
    ∃ pre msel mlink isel ilink tsel fr,
      ([PipelineEvent.selectionCall, PipelineEvent.coherenceCall,
        PipelineEvent.resolveMusicCall exM, PipelineEvent.resolveImageCall exI,
        PipelineEvent.framingCall exM exI exT,
        PipelineEvent.createBundleWrite exampleBundleOk]
          : List PipelineEvent)
        = pre ++ [.framingCall msel isel tsel, .createBundleWrite exampleBundleOk]
      ∧ exampleBundleOk = mkDailyBundle "2025-01-01" exampleEnvOk.arc "calm"
          msel mlink isel ilink tsel fr
      ∧ ∀ ev ∈ pre, isFramingEvent ev = false ∧ isCreateBundleEvent ev = false := by
  have hmain : generateDailyBundle exampleEnvOk "2025-01-01" "calm"
      = ([PipelineEvent.selectionCall, PipelineEvent.coherenceCall,
          PipelineEvent.resolveMusicCall exM, PipelineEvent.resolveImageCall exI,
          PipelineEvent.framingCall exM exI exT,
          PipelineEvent.createBundleWrite exampleBundleOk], .ok exampleBundleOk) := by
    simp only [generateDailyBundle]
    rw [phaseEvents_nil exampleEnvOk rfl rfl rfl]
    rfl
  exact framing_receives_persisted_artifacts exampleEnvOk "2025-01-01" "calm" _
    exampleBundleOk hmain

def exampleEnvFail : GenEnv := { exampleEnvOk with selection := .error .parse }

theorem generation_failure_no_partial_bundle_witness :
    generateJSON (fun _ => (none : Option Unit)) "not json" = Except.error GenErr.parse
    ∧ generateDailyBundle exampleEnvFail "2025-01-01" "calm"
        = ([PipelineEvent.selectionCall], Except.error GenErr.parse)
    ∧ isCreateBundleEvent PipelineEvent.selectionCall = false := by
  have hmain : generateDailyBundle exampleEnvFail "2025-01-01" "calm"
      = ([PipelineEvent.selectionCall], Except.error GenErr.parse) := by
    simp only [generateDailyBundle]
    rw [phaseEvents_nil exampleEnvFail rfl rfl rfl]
    rfl
  exact ⟨generation_failure_no_partial_bundle.1 Unit (fun _ => none) "not json" rfl,
    hmain,
    generation_failure_no_partial_bundle.2 exampleEnvFail "2025-01-01" "calm" _ _ hmain
      .selectionCall (List.mem_singleton.mpr rfl)⟩

def starrySel : ImageSelection := ⟨"Starry Night", "Vincent van Gogh", "starry night"⟩

def exampleEnvStarry : GenEnv :=
  { exampleEnvOk with
      exposures := [⟨.image, "Starry Night - Vincent van Gogh", some "Vincent van Gogh"⟩] }

theorem image_duplicate_sole_rejection_witness :
    isRecentImageDuplicate exampleEnvStarry.exposures starrySel = true
    ∧ ∃ evs r, imageRetryLoop exampleEnvStarry starrySel
        (some ⟨"https://commons.example/starry", "https://img.example/starry.jpg"⟩) [] (2 + 1)
        = (.altImageCall [starrySel] :: evs, r) := by
  have hdup : isRecentImageDuplicate exampleEnvStarry.exposures starrySel = true := by rfl
  exact ⟨hdup,
    (image_duplicate_sole_rejection exampleEnvStarry starrySel
      ⟨"https://commons.example/starry", "https://img.example/starry.jpg"⟩ [] 2).1 hdup⟩

/-! ### Budget exhaustion (claim C5) -/

theorem countP_zero_of_all {p : PipelineEvent → Bool} {l : List PipelineEvent}
    (h : ∀ ev ∈ l, p ev = false) : l.countP p = 0 := by
  rw [List.countP_eq_zero]
  intro a ha
  simp [h a ha]

theorem musicRetryLoop_exhaust (env : GenEnv)
    (hm : ∀ m, env.resolveMusic m = none)
    (halt : ∀ fs, ∃ m, env.altMusic fs = .ok m) :
    ∀ (fuel : ℕ) (sel : MusicSelection) (failed : List MusicSelection),
      ∃ evs sel', musicRetryLoop env sel none failed fuel = (evs, .ok (sel', none))
        ∧ evs.countP isAltMusicEvent = fuel := by
  intro fuel
  induction fuel with
  | zero => intro sel failed; exact ⟨[], sel, rfl, rfl⟩
  | succ n ih =>
    intro sel failed
    obtain ⟨alt, hairs⟩ := halt (failed ++ [sel])
    obtain ⟨evs, sel', hloop, hcount⟩ := ih alt (failed ++ [sel])
    refine ⟨.altMusicCall (failed ++ [sel]) :: .resolveMusicCall alt :: evs, sel', ?_, ?_⟩
    · simp only [musicRetryLoop]
      rw [hairs]
      dsimp only
      rw [hm alt, hloop]
    · simp [List.countP_cons, hcount, isAltMusicEvent]

theorem imageRetryLoop_exhaust (env : GenEnv)
    (hi : ∀ i, env.resolveImage i = none)
    (halt : ∀ fs, ∃ i, env.altImage fs = .ok i) :
    ∀ (fuel : ℕ) (sel : ImageSelection) (failed : List ImageSelection),
      ∃ evs sel', imageRetryLoop env sel none failed fuel = (evs, .ok (sel', none))
        ∧ evs.countP isAltImageEvent = fuel := by
  intro fuel
  induction fuel with
  | zero => intro sel failed; exact ⟨[], sel, rfl, rfl⟩
  | succ n ih =>
    intro sel failed
    obtain ⟨alt, hairs⟩ := halt (failed ++ [sel])
    obtain ⟨evs, sel', hloop, hcount⟩ := ih alt (failed ++ [sel])
    by_cases hd : isRecentImageDuplicate env.exposures alt = true
    · refine ⟨.altImageCall (failed ++ [sel]) :: evs, sel', ?_, ?_⟩
      · simp only [imageRetryLoop]
        rw [if_pos (by simp)]
        rw [hairs]
        dsimp only
        rw [if_pos hd, hloop]
      · simp [List.countP_cons, hcount, isAltImageEvent]
    · refine ⟨.altImageCall (failed ++ [sel]) :: .resolveImageCall alt :: evs, sel', ?_, ?_⟩
      · simp only [imageRetryLoop]
        rw [if_pos (by simp)]
        rw [hairs]
        dsimp only
        rw [if_neg hd, hi alt, hloop]
      · simp [List.countP_cons, hcount, isAltImageEvent]

theorem textRetryLoop_exhaust (env : GenEnv)
    (halt : ∀ fs, ∃ t, env.altText fs = .ok t)
    (hrec : ∀ fs t, env.altText fs = .ok t → isRecentTextAuthor env.exposures t = true) :
    ∀ (fuel : ℕ) (sel : TextSelection) (failed : List TextSelection),
      isRecentTextAuthor env.exposures sel = true →
      ∃ evs sel', textRetryLoop env sel failed fuel = (evs, .ok sel')
        ∧ evs.countP isAltTextEvent = fuel
        ∧ isRecentTextAuthor env.exposures sel' = true := by
  intro fuel
  induction fuel with
  | zero => intro sel failed hsel; exact ⟨[], sel, rfl, rfl, hsel⟩
  | succ n ih =>
    intro sel failed hsel
    obtain ⟨alt, hairs⟩ := halt (failed ++ [sel])
    obtain ⟨evs, sel', hloop, hcount, hsel'⟩ :=
      ih alt (failed ++ [sel]) (hrec _ _ hairs)
    refine ⟨.altTextCall (failed ++ [sel]) :: evs, sel', ?_, ?_, hsel'⟩
    · simp only [textRetryLoop]
      rw [if_pos hsel]
      rw [hairs]
      dsimp only
      rw [hloop]
    · simp [List.countP_cons, hcount, isAltTextEvent]

theorem applyCoherenceFixes_ok (env : GenEnv)
    (hir : ∀ i t issue, ∃ i', env.cohImageReplace i t issue = .ok i')
    (htrr : ∀ t i issue, ∃ t', env.cohTextReplace t i issue = .ok t')
    (P : TextSelection → Prop)
    (hP : ∀ t i issue t', env.cohTextReplace t i issue = .ok t' → P t') :
    ∀ (issues : List CoherenceIssue) (i : ImageSelection) (t : TextSelection), P t →
      ∃ evs i' t', applyCoherenceFixes env issues i t = (evs, .ok (i', t')) ∧ P t' := by
  intro issues
  induction issues with
  | nil => intro i t hPt; exact ⟨[], i, t, rfl, hPt⟩
  | cons issue rest ih =>
    intro i t hPt
    simp only [applyCoherenceFixes]
    cases hty : issue.type with
    | image =>
      obtain ⟨i', hi'⟩ := hir i t issue
      obtain ⟨evs, i'', t'', hrec2, hPt''⟩ := ih i' t hPt
      refine ⟨.cohImageReplaceCall :: evs, i'', t'', ?_, hPt''⟩
      simp only [hi', callGen_def, pmBind_ok_def]
      rw [hrec2]
      rfl
    | text =>
      obtain ⟨t', ht'⟩ := htrr t i issue
      obtain ⟨evs, i'', t'', hrec2, hPt''⟩ := ih i t' (hP _ _ _ _ ht')
      refine ⟨.cohTextReplaceCall :: evs, i'', t'', ?_, hPt''⟩
      simp only [ht', callGen_def, pmBind_ok_def]
      rw [hrec2]
      rfl
    | music =>
      obtain ⟨evs, i'', t'', hrec2, hPt''⟩ := ih i t hPt
      exact ⟨evs, i'', t'', hrec2, hPt''⟩

theorem coherencePhase_ok (env : GenEnv)
    (hco : ∀ m i t, ∃ c, env.coherence m i t = .ok c)
    (hir : ∀ i t issue, ∃ i', env.cohImageReplace i t issue = .ok i')
    (htrr : ∀ t i issue, ∃ t', env.cohTextReplace t i issue = .ok t')
    (P : TextSelection → Prop)
    (hP : ∀ t i issue t', env.cohTextReplace t i issue = .ok t' → P t') :
    ∀ (sel : LLMBundleSelection), P sel.text →
      ∃ evs it, coherencePhase env sel = (evs, .ok it) ∧ P it.2 := by
  intro sel hPt
  obtain ⟨c, hc⟩ := hco sel.music sel.image sel.text
  unfold coherencePhase
  by_cases hif : c.isCoherent = false ∧ c.issues ≠ []
  · obtain ⟨evs, i', t', hfix, hPt'⟩ :=
      applyCoherenceFixes_ok env hir htrr P hP c.issues sel.image sel.text hPt
    refine ⟨.coherenceCall :: evs, (i', t'), ?_, hPt'⟩
    simp only [hc, callGen_def, pmBind_ok_def]
    rw [if_pos hif, hfix]
    rfl
  · refine ⟨[.coherenceCall], (sel.image, sel.text), ?_, hPt⟩
    simp only [hc, callGen_def, pmBind_ok_def]
    rw [if_neg hif]
    rfl

/-- **C5.** When the music resolver fails on the initial selection and on
every alternative, the loop stops after `MAX_MUSIC_RETRIES = 5` failed
alternatives and `generateDailyBundle` still persists a bundle whose music
reference is the empty string — no exception.  Under image-resolver failure
and a recent-author-saturated text pool the image loop requests exactly
`MAX_IMAGE_RETRIES = 3` and the text loop exactly `MAX_TEXT_RETRIES = 3`
alternatives, and the bundle is still persisted (with empty image reference
and the duplicate-accepted text). -/
theorem exhaustion_degrades_not_aborts :
    ∀ (env : GenEnv) (bundleId tone : String),
      (∀ m, env.resolveMusic m = none) →
      (∀ i, env.resolveImage i = none) →
      (∃ s, env.selection = .ok s ∧ isRecentTextAuthor env.exposures s.text = true) →
      (∀ m i t, ∃ c, env.coherence m i t = .ok c) →
      (∀ i t issue, ∃ i', env.cohImageReplace i t issue = .ok i') →
      (∀ t i issue, ∃ t', env.cohTextReplace t i issue = .ok t') →
      (∀ fs, ∃ m, env.altMusic fs = .ok m) →
      (∀ fs, ∃ i, env.altImage fs = .ok i) →
      (∀ fs, ∃ t, env.altText fs = .ok t) →
      (∀ fs t, env.altText fs = .ok t → isRecentTextAuthor env.exposures t = true) →
      (∀ t i issue t', env.cohTextReplace t i issue = .ok t' →
          isRecentTextAuthor env.exposures t' = true) →
      (∀ m i t, ∃ fr, env.framing m i t = .ok fr) →
      ∃ tr b, generateDailyBundle env bundleId tone = (tr, .ok b)
        ∧ b.music.appleMusicUrl = ""
        ∧ b.image.sourceUrl = ""
        ∧ b.image.imageUrl = ""
        ∧ tr.countP isAltMusicEvent = MAX_MUSIC_RETRIES
        ∧ tr.countP isAltImageEvent = MAX_IMAGE_RETRIES
        ∧ tr.countP isAltTextEvent = MAX_TEXT_RETRIES
        ∧ ∃ pre, tr = pre ++ [.createBundleWrite b] := by
  intro env bundleId tone hm hi hselin hco hir htrr haltm halti haltt hrecT hrecCT hframe
  obtain ⟨s, hsel, hstext⟩ := hselin
  obtain ⟨evsC, it, hcoh, hPit⟩ := coherencePhase_ok env hco hir htrr
    (fun t => isRecentTextAuthor env.exposures t = true) hrecCT s hstext
  obtain ⟨evsM, msel, hM, hcM⟩ :=
    musicRetryLoop_exhaust env hm haltm MAX_MUSIC_RETRIES s.music []
  obtain ⟨evsI, isel, hI, hcI⟩ :=
    imageRetryLoop_exhaust env hi halti MAX_IMAGE_RETRIES it.1 []
  obtain ⟨evsT, tsel, hT, hcT, _⟩ :=
    textRetryLoop_exhaust env haltt hrecT MAX_TEXT_RETRIES it.2 [] hPit
  obtain ⟨fr, hfr⟩ := hframe msel isel tsel
  have hmus : musicPhase env s.music
      = (.resolveMusicCall s.music :: evsM, .ok (msel, none)) := by
    unfold musicPhase
    rw [hm s.music, hM]
  have himg : imagePhase env it.1
      = (.resolveImageCall it.1 :: evsI, .ok (isel, none)) := by
    unfold imagePhase
    rw [hi it.1, hI]
  have hfin : finalPhase env bundleId tone (msel, none) (isel, none) tsel
      = ([.framingCall msel isel tsel,
          .createBundleWrite (mkDailyBundle bundleId env.arc tone msel none isel none tsel fr)],
         .ok (mkDailyBundle bundleId env.arc tone msel none isel none tsel fr)) := by
    unfold finalPhase
    dsimp only
    simp only [hfr, callGen_def, pmBind_ok_def]
    rfl
  have hmain : generateDailyBundle env bundleId tone
      = ((if determinePhase ((generationDayInArc env.bundleCount : ℚ))
            ((env.arc.targetDurationDays : ℚ)) ≠ env.arc.currentPhase
          then [PipelineEvent.updateArcPhaseWrite (determinePhase
            ((generationDayInArc env.bundleCount : ℚ)) ((env.arc.targetDurationDays : ℚ)))]
          else []) ++
          ([PipelineEvent.selectionCall] ++ (evsC ++
            ((PipelineEvent.resolveMusicCall s.music :: evsM) ++
              ((PipelineEvent.resolveImageCall it.1 :: evsI) ++ (evsT ++
                [PipelineEvent.framingCall msel isel tsel,
                 PipelineEvent.createBundleWrite
                   (mkDailyBundle bundleId env.arc tone msel none isel none tsel fr)]))))),
        .ok (mkDailyBundle bundleId env.arc tone msel none isel none tsel fr)) := by
    simp only [generateDailyBundle, hsel, callGen_def, pmBind_ok_def, hcoh, hmus, himg,
      hT, hfin]
  refine ⟨_, _, hmain, rfl, rfl, rfl, ?_, ?_, ?_, ?_⟩
  · have hPH : ∀ ev ∈ (if determinePhase ((generationDayInArc env.bundleCount : ℚ))
        ((env.arc.targetDurationDays : ℚ)) ≠ env.arc.currentPhase
        then [PipelineEvent.updateArcPhaseWrite (determinePhase
          ((generationDayInArc env.bundleCount : ℚ)) ((env.arc.targetDurationDays : ℚ)))]
        else []), isAltMusicEvent ev = false := by
      intro ev hev; rw [mem_phaseEvents hev]; rfl
    have hC0 : evsC.countP isAltMusicEvent = 0 := by
      refine countP_zero_of_all ?_
      intro ev hev
      have : ev ∈ (coherencePhase env s).1 := by rw [hcoh]; exact hev
      rcases coherencePhase_mem env s ev this with h' | h' | h' <;> (rw [h']; rfl)
    have hI0 : evsI.countP isAltMusicEvent = 0 := by
      refine countP_zero_of_all ?_
      intro ev hev
      have : ev ∈ (imageRetryLoop env it.1 none [] MAX_IMAGE_RETRIES).1 := by
        rw [hI]; exact hev
      rcases imageRetryLoop_mem env _ _ _ _ ev this with ⟨_, h'⟩ | ⟨_, h'⟩ <;> (rw [h']; rfl)
    have hT0 : evsT.countP isAltMusicEvent = 0 := by
      refine countP_zero_of_all ?_
      intro ev hev
      have : ev ∈ (textRetryLoop env it.2 [] MAX_TEXT_RETRIES).1 := by
        rw [hT]; exact hev
      obtain ⟨_, h'⟩ := textRetryLoop_mem env _ _ _ ev this
      rw [h']; rfl
    simp [List.countP_append, List.countP_cons, countP_zero_of_all hPH,
      hC0, hI0, hT0, hcM, isAltMusicEvent]
  · have hPH : ∀ ev ∈ (if determinePhase ((generationDayInArc env.bundleCount : ℚ))
        ((env.arc.targetDurationDays : ℚ)) ≠ env.arc.currentPhase
        then [PipelineEvent.updateArcPhaseWrite (determinePhase
          ((generationDayInArc env.bundleCount : ℚ)) ((env.arc.targetDurationDays : ℚ)))]
        else []), isAltImageEvent ev = false := by
      intro ev hev; rw [mem_phaseEvents hev]; rfl
    have hC0 : evsC.countP isAltImageEvent = 0 := by
      refine countP_zero_of_all ?_
      intro ev hev
      have : ev ∈ (coherencePhase env s).1 := by rw [hcoh]; exact hev
      rcases coherencePhase_mem env s ev this with h' | h' | h' <;> (rw [h']; rfl)
    have hM0 : evsM.countP isAltImageEvent = 0 := by
      refine countP_zero_of_all ?_
      intro ev hev
      have : ev ∈ (musicRetryLoop env s.music none [] MAX_MUSIC_RETRIES).1 := by
        rw [hM]; exact hev
      rcases musicRetryLoop_mem env _ _ _ _ ev this with ⟨_, h'⟩ | ⟨_, h'⟩ <;> (rw [h']; rfl)
    have hT0 : evsT.countP isAltImageEvent = 0 := by
      refine countP_zero_of_all ?_
      intro ev hev
      have : ev ∈ (textRetryLoop env it.2 [] MAX_TEXT_RETRIES).1 := by
        rw [hT]; exact hev
      obtain ⟨_, h'⟩ := textRetryLoop_mem env _ _ _ ev this
      rw [h']; rfl
    simp [List.countP_append, List.countP_cons, countP_zero_of_all hPH,
      hC0, hM0, hT0, hcI, isAltImageEvent]
  · have hPH : ∀ ev ∈ (if determinePhase ((generationDayInArc env.bundleCount : ℚ))
        ((env.arc.targetDurationDays : ℚ)) ≠ env.arc.currentPhase
        then [PipelineEvent.updateArcPhaseWrite (determinePhase
          ((generationDayInArc env.bundleCount : ℚ)) ((env.arc.targetDurationDays : ℚ)))]
        else []), isAltTextEvent ev = false := by
      intro ev hev; rw [mem_phaseEvents hev]; rfl
    have hC0 : evsC.countP isAltTextEvent = 0 := by
      refine countP_zero_of_all ?_
      intro ev hev
      have : ev ∈ (coherencePhase env s).1 := by rw [hcoh]; exact hev
      rcases coherencePhase_mem env s ev this with h' | h' | h' <;> (rw [h']; rfl)
    have hM0 : evsM.countP isAltTextEvent = 0 := by
      refine countP_zero_of_all ?_
      intro ev hev
      have : ev ∈ (musicRetryLoop env s.music none [] MAX_MUSIC_RETRIES).1 := by
        rw [hM]; exact hev
      rcases musicRetryLoop_mem env _ _ _ _ ev this with ⟨_, h'⟩ | ⟨_, h'⟩ <;> (rw [h']; rfl)
    have hI0 : evsI.countP isAltTextEvent = 0 := by
      refine countP_zero_of_all ?_
      intro ev hev
      have : ev ∈ (imageRetryLoop env it.1 none [] MAX_IMAGE_RETRIES).1 := by
        rw [hI]; exact hev
      rcases imageRetryLoop_mem env _ _ _ _ ev this with ⟨_, h'⟩ | ⟨_, h'⟩ <;> (rw [h']; rfl)
    simp [List.countP_append, List.countP_cons, countP_zero_of_all hPH,
      hC0, hM0, hI0, hcT, isAltTextEvent]
  · refine ⟨(if determinePhase ((generationDayInArc env.bundleCount : ℚ))
        ((env.arc.targetDurationDays : ℚ)) ≠ env.arc.currentPhase
        then [PipelineEvent.updateArcPhaseWrite (determinePhase
          ((generationDayInArc env.bundleCount : ℚ)) ((env.arc.targetDurationDays : ℚ)))]
        else []) ++
        ([PipelineEvent.selectionCall] ++ (evsC ++
          ((PipelineEvent.resolveMusicCall s.music :: evsM) ++
            ((PipelineEvent.resolveImageCall it.1 :: evsI) ++ (evsT ++
              [PipelineEvent.framingCall msel isel tsel]))))), ?_⟩
    simp [List.append_assoc]

def aurelius : TextSelection := ⟨"A quote", "Meditations", "Marcus Aurelius"⟩

def exampleEnvExhaust : GenEnv :=
  { exampleEnvOk with
      exposures := [⟨.text, "Meditations - Marcus Aurelius", some "Marcus Aurelius"⟩]
      selection := .ok ⟨exM, exI, aurelius⟩
      altText := fun _ => .ok aurelius
      cohTextReplace := fun _ _ _ => .ok aurelius
      resolveMusic := fun _ => none
      resolveImage := fun _ => none }

theorem exhaustion_degrades_not_aborts_witness :
    ∃ tr b, generateDailyBundle exampleEnvExhaust "2025-01-01" "calm" = (tr, .ok b)
      ∧ b.music.appleMusicUrl = ""
      ∧ b.image.sourceUrl = ""
      ∧ b.image.imageUrl = ""
      ∧ tr.countP isAltMusicEvent = MAX_MUSIC_RETRIES
      ∧ tr.countP isAltImageEvent = MAX_IMAGE_RETRIES
      ∧ tr.countP isAltTextEvent = MAX_TEXT_RETRIES
      ∧ ∃ pre, tr = pre ++ [.createBundleWrite b] :=
  exhaustion_degrades_not_aborts exampleEnvExhaust "2025-01-01" "calm"
    (fun _ => rfl) (fun _ => rfl)
    ⟨⟨exM, exI, aurelius⟩, rfl, by rfl⟩
    (fun _ _ _ => ⟨⟨true, []⟩, rfl⟩)
    (fun i _ _ => ⟨i, rfl⟩)
    (fun _ _ _ => ⟨aurelius, rfl⟩)
    (fun _ => ⟨⟨"Alt Song", "Alt Artist", none, none, none, ""⟩, rfl⟩)
    (fun _ => ⟨⟨"Alt Pic", "Alt Painter", ""⟩, rfl⟩)
    (fun _ => ⟨aurelius, rfl⟩)
    (fun _ _ h => by cases h; rfl)
    (fun _ _ _ _ h => by cases h; rfl)
    (fun _ _ _ => ⟨⟨"frame"⟩, rfl⟩)

end Primer
